import Mathlib

/-!
Shallow embedding of the osmpbf crate (a reader for the OpenStreetMap PBF
format) and proofs about it.  Rust sources embedded here: `src/block.rs`,
`src/dense.rs`, `src/elements.rs`, `src/blob.rs`, `src/reader.rs`,
`src/indexed.rs`.

Modelling conventions:
* Machine integers (i32/i64/u32/u64/usize) are modelled as `Int`/`Nat`.
  Where two's-complement wrap-around matters for a claim (`as i32` casts,
  i64 addition in coordinate reconstruction) it is made explicit with
  `wrap32`/`wrap64`; delta accumulators that no claim exercises near the
  boundaries use plain `Int` arithmetic.
* Rust slices and protobuf repeated fields are Lean `List`s; a slice
  iterator is the list of its remaining elements, `next` is `head?`/`tail`.
* Fallible Rust code returns `Except`/`Option`; a Rust panic is modelled
  by a dedicated `Panic` error value.
* The zlib codec and the protobuf wire parsers are external collaborators
  of the crate (out of scope per its spec); they enter the model as
  function parameters.
-/

set_option maxHeartbeats 1000000

namespace Osmpbf

/-! ### Stringtable lookups, from `src/block.rs` -/

/-- Bytes of one stringtable entry (Rust `Vec<u8>`). -/
abbrev ByteStr := List Nat

/-- Model of `std::str::from_utf8`: `some s` on valid UTF-8 input, `none`
otherwise.  The UTF-8 codec is external to the crate, so it is a parameter
of every function that resolves stringtable entries. -/
abbrev Utf8Decoder := ByteStr → Option String

/-- Errors of `str_from_stringtable` (the `StringtableUtf8` and
`StringtableIndexOutOfBounds` variants of `ErrorKind` in `src/error.rs`). -/
inductive StrTabError where
  | utf8 (index : Nat)
  | outOfBounds (index : Nat)
deriving DecidableEq, Repr

/-- Embeds `str_from_stringtable` (`src/block.rs` lines 426-436):
look the index up in the stringtable, then UTF-8-decode the bytes. -/
def str_from_stringtable (u : Utf8Decoder) (st : List ByteStr) (index : Nat) :
    Except StrTabError String :=
  match st.get? index with
  | some bytes =>
    match u bytes with
    | some s => Except.ok s
    | none => Except.error (StrTabError.utf8 index)
  | none => Except.error (StrTabError.outOfBounds index)

/-- Embeds `get_stringtable_key_value` (`src/block.rs` lines 439-456):
both indices must be present and resolve; any failure yields `none`. -/
def get_stringtable_key_value (u : Utf8Decoder) (st : List ByteStr)
    (key_index value_index : Option Nat) : Option (String × String) :=
  match key_index, value_index with
  | some k, some v =>
    match str_from_stringtable u st k, str_from_stringtable u st v with
    | Except.ok ks, Except.ok vs => some (ks, vs)
    | _, _ => none
  | _, _ => none

/-! ### Tag iterators, from `src/elements.rs` and `src/dense.rs` -/

/-- State of `TagIter` (`src/elements.rs` lines 514-536): the remaining
`keys`/`vals` stringtable-index arrays (u32 values). -/
structure TagIter where
  key_indices : List Nat
  val_indices : List Nat
deriving DecidableEq, Repr

/-- One call of `TagIter::next`: consume one index from each array
(eager, as in the Rust tuple argument) and resolve the pair. -/
def TagIter.next (u : Utf8Decoder) (st : List ByteStr) (s : TagIter) :
    Option (String × String) × TagIter :=
  (get_stringtable_key_value u st s.key_indices.head? s.val_indices.head?,
   ⟨s.key_indices.tail, s.val_indices.tail⟩)

/-- The results of `n` successive calls of `TagIter::next`. -/
def TagIter.run (u : Utf8Decoder) (st : List ByteStr) :
    Nat → TagIter → List (Option (String × String))
  | 0, _ => []
  | n + 1, s =>
    (TagIter.next u st s).1 :: TagIter.run u st n (TagIter.next u st s).2

/-- Rust `v as usize` for an `i32` value `v` on a 64-bit target:
sign-extend, then reinterpret as an unsigned machine word. -/
def usizeOfI32 (v : Int) : Nat := (if 0 ≤ v then v else v + 2 ^ 64).toNat

/-- One call of `DenseTagIter::next` (`src/dense.rs` lines 326-341):
consume two indices from the single flat `keys_vals_indices` array and
resolve the pair. -/
def DenseTagIter.next (u : Utf8Decoder) (st : List ByteStr) (l : List Int) :
    Option (String × String) × List Int :=
  (get_stringtable_key_value u st (l.head?.map usizeOfI32)
    (l.tail.head?.map usizeOfI32), l.tail.tail)

/-- The results of `n` successive calls of `DenseTagIter::next`. -/
def DenseTagIter.run (u : Utf8Decoder) (st : List ByteStr) :
    Nat → List Int → List (Option (String × String))
  | 0, _ => []
  | n + 1, l =>
    (DenseTagIter.next u st l).1 :: DenseTagIter.run u st n (DenseTagIter.next u st l).2

/-- Groups a flat index list into the key/value pairs that
`DenseTagIter::next` consumes: a trailing odd element has no value. -/
def chunk2 : List Int → List (Int × Option Int)
  | [] => []
  | [x] => [(x, none)]
  | x :: y :: rest => (x, some y) :: chunk2 rest

/-! ### Dense nodes, from `src/dense.rs` -/

/-- The `DenseInfo` protobuf message: five parallel arrays plus the
optional `visible` array (`osmformat.proto`).  When the message is absent
the source substitutes the default (all arrays empty) via
`get_or_default`. -/
structure DenseInfoData where
  version : List Int
  timestamp : List Int
  changeset : List Int
  uid : List Int
  user_sid : List Int
  visible : List Bool
deriving DecidableEq, Repr

/-- The `DenseNodes` protobuf message as used by `DenseNodeIter::new`. -/
structure DenseData where
  id : List Int
  lat : List Int
  lon : List Int
  keys_vals : List Int
  denseinfo : DenseInfoData
deriving DecidableEq, Repr

/-- A decoded `DenseNodeInfo` (`src/dense.rs` lines 186-201). -/
structure DenseNodeInfo where
  version : Int
  timestamp : Int
  changeset : Int
  uid : Int
  user_sid : Int
  visible : Bool
deriving DecidableEq, Repr

/-- State of `DenseNodeInfoIter` (`src/dense.rs` lines 243-256): remaining
arrays plus the running delta accumulators. -/
structure DenseNodeInfoIter where
  versions : List Int
  dtimestamps : List Int
  ctimestamp : Int
  dchangesets : List Int
  cchangeset : Int
  duids : List Int
  cuid : Int
  duser_sids : List Int
  cuser_sid : Int
  visible : List Bool
deriving DecidableEq, Repr

/-- `DenseNodeInfoIter::new`: accumulators start at 0. -/
def DenseNodeInfoIter.new (info : DenseInfoData) : DenseNodeInfoIter :=
  ⟨info.version, info.timestamp, 0, info.changeset, 0, info.uid, 0,
   info.user_sid, 0, info.visible⟩

/-- One call of `DenseNodeInfoIter::next` (`src/dense.rs` lines 279-316).
All six sub-iterators are advanced eagerly (the Rust tuple argument);
a node is produced only when the five mandatory arrays all yield a value,
`visible` defaulting to `true` when exhausted. -/
def DenseNodeInfoIter.next (s : DenseNodeInfoIter) :
    Option DenseNodeInfo × DenseNodeInfoIter :=
  match s.versions.head?, s.dtimestamps.head?, s.dchangesets.head?,
      s.duids.head?, s.duser_sids.head? with
  | some version, some dt, some dc, some du, some dus =>
    let ct := s.ctimestamp + dt
    let cc := s.cchangeset + dc
    let cu := s.cuid + du
    let cus := s.cuser_sid + dus
    (some ⟨version, ct, cc, cu, cus, s.visible.head?.getD true⟩,
     ⟨s.versions.tail, s.dtimestamps.tail, ct, s.dchangesets.tail, cc,
      s.duids.tail, cu, s.duser_sids.tail, cus, s.visible.tail⟩)
  | _, _, _, _, _ =>
    (none,
     ⟨s.versions.tail, s.dtimestamps.tail, s.ctimestamp, s.dchangesets.tail,
      s.cchangeset, s.duids.tail, s.cuid, s.duser_sids.tail, s.cuser_sid,
      s.visible.tail⟩)

/-- A decoded dense node (`src/dense.rs` lines 10-21).  `keys_vals_indices`
is this node's run of the shared flat tag array. -/
structure DenseNode where
  id : Int
  lat : Int
  lon : Int
  keys_vals_indices : List Int
  info : Option DenseNodeInfo
deriving DecidableEq, Repr

/-- State of `DenseNodeIter` (`src/dense.rs` lines 86-97).  The source
keeps the full `keys_vals` slice plus a cursor index; here `keys_vals` is
the remainder of the slice from the cursor on, which is extensionally the
same. -/
structure DenseNodeIter where
  dids : List Int
  cid : Int
  dlats : List Int
  clat : Int
  dlons : List Int
  clon : Int
  keys_vals : List Int
  info_iter : Option DenseNodeInfoIter
deriving DecidableEq, Repr

/-- `DenseNodeIter::new` (`src/dense.rs` lines 100-120). -/
def DenseNodeIter.new (d : DenseData) : DenseNodeIter :=
  ⟨d.id, 0, d.lat, 0, d.lon, 0, d.keys_vals,
   some (DenseNodeInfoIter.new d.denseinfo)⟩

/-- The tag-cursor walk inside `DenseNodeIter::next` (`src/dense.rs` lines
153-163): split the remaining `keys_vals` into this node's tag run and the
rest.  The source walks `chunks(2)` and advances an index; pairs are taken
while the chunk is full and its key is nonzero, a `0` key (the terminator)
or a trailing lone element advances the cursor by one and stops. -/
def denseTagsSplit : List Int → List Int × List Int
  | [] => ([], [])
  | [_] => ([], [])
  | x :: y :: rest =>
    if x ≠ 0 then
      ((x :: y :: (denseTagsSplit rest).1), (denseTagsSplit rest).2)
    else ([], y :: rest)

/-- One call of `DenseNodeIter::next` (`src/dense.rs` lines 141-176).
The four sub-iterators (ids, lats, lons, info) are advanced eagerly; a
node is produced only when the three coordinate arrays all yield a delta.
The tag cursor advances only in the success arm, as in the source. -/
def DenseNodeIter.next (s : DenseNodeIter) : Option DenseNode × DenseNodeIter :=
  let infoRes : Option DenseNodeInfo × Option DenseNodeInfoIter :=
    match s.info_iter with
    | some it => ((DenseNodeInfoIter.next it).1, some (DenseNodeInfoIter.next it).2)
    | none => (none, none)
  match s.dids.head?, s.dlats.head?, s.dlons.head? with
  | some did, some dlat, some dlon =>
    let cid := s.cid + did
    let clat := s.clat + dlat
    let clon := s.clon + dlon
    (some ⟨cid, clat, clon, (denseTagsSplit s.keys_vals).1, infoRes.1⟩,
     ⟨s.dids.tail, cid, s.dlats.tail, clat, s.dlons.tail, clon,
      (denseTagsSplit s.keys_vals).2, infoRes.2⟩)
  | _, _, _ =>
    (none,
     ⟨s.dids.tail, s.cid, s.dlats.tail, s.clat, s.dlons.tail, s.clon,
      s.keys_vals, infoRes.2⟩)

/-- `Iterator::size_hint` of `DenseNodeIter` (`src/dense.rs` lines
178-180) mirrors the remaining length of the `id` delta array; it is also
what `ExactSizeIterator::len` reports. -/
def DenseNodeIter.sizeHint (s : DenseNodeIter) : Nat := s.dids.length

/-- Drive `DenseNodeIter::next` with explicit fuel, collecting the yielded
nodes; iteration stops at the first `none`. -/
def DenseNodeIter.runFuel : Nat → DenseNodeIter → List DenseNode
  | 0, _ => []
  | n + 1, s =>
    match DenseNodeIter.next s with
    | (some node, s2) => node :: DenseNodeIter.runFuel n s2
    | (none, _) => []

/-- All nodes yielded by iterating a `DenseNodes` message to exhaustion.
`id.length` is enough fuel because every yielded node consumes one id
delta. -/
def denseNodesOf (d : DenseData) : List DenseNode :=
  DenseNodeIter.runFuel d.id.length (DenseNodeIter.new d)

/-- Reference delta decoder: the i-th output is the sum of the first
`i + 1` deltas (the running accumulator of the iterators). -/
def deltaDecode (acc : Int) : List Int → List Int
  | [] => []
  | d :: rest => (acc + d) :: deltaDecode (acc + d) rest

/-- Flattens a list of (key, value) pairs into the wire form of a dense
tag run. -/
def flatPairs (ps : List (Int × Int)) : List Int :=
  ps.flatMap (fun p => [p.1, p.2])

/-! ### Elements and coordinates, from `src/elements.rs` -/

/-- Two's-complement wrap-around of Rust release-mode `i64` arithmetic. -/
def wrap64 (x : Int) : Int := (x + 2 ^ 63) % 2 ^ 64 - 2 ^ 63

/-- Two's-complement wrap-around of a Rust `as i32` cast. -/
def wrap32 (x : Int) : Int := (x + 2 ^ 31) % 2 ^ 32 - 2 ^ 31

/-- The fields of `osmformat::PrimitiveBlock` that the element views read.
The protobuf getters substitute the schema defaults (granularity 100,
offsets 0, date_granularity 1000) when a field is absent; the model stores
the resulting values directly. -/
structure BlockCtx where
  stringtable : List ByteStr
  granularity : Int
  lat_offset : Int
  lon_offset : Int
  date_granularity : Int
deriving DecidableEq, Repr

/-- An `osmformat::Node` (sparse node): the fields read by the `Node` view. -/
structure NodeData where
  id : Int
  keys : List Nat
  vals : List Nat
  lat : Int
  lon : Int
deriving DecidableEq, Repr

/-- `Node::nano_lat` (`src/elements.rs` lines 89-91):
`lat_offset + i64::from(granularity) * lat` in i64 arithmetic.  A single
outer wrap is enough: the intermediate product wrap is congruent mod 2⁶⁴. -/
def Node.nano_lat (b : BlockCtx) (n : NodeData) : Int :=
  wrap64 (b.lat_offset + b.granularity * n.lat)

/-- `Node::nano_lon` (`src/elements.rs` lines 104-106). -/
def Node.nano_lon (b : BlockCtx) (n : NodeData) : Int :=
  wrap64 (b.lon_offset + b.granularity * n.lon)

/-- `Node::lat` (`src/elements.rs` lines 84-86): `1e-9 * nano_lat as f64`. -/
def Node.lat (b : BlockCtx) (n : NodeData) : Float :=
  1e-9 * Float.ofInt (Node.nano_lat b n)

/-- `Node::lon` (`src/elements.rs` lines 99-101). -/
def Node.lon (b : BlockCtx) (n : NodeData) : Float :=
  1e-9 * Float.ofInt (Node.nano_lon b n)

/-- `Node::decimicro_lat` (`src/elements.rs` lines 94-96):
`(nano_lat / 100) as i32`; Rust i64 division truncates toward zero. -/
def Node.decimicro_lat (b : BlockCtx) (n : NodeData) : Int :=
  wrap32 ((Node.nano_lat b n).tdiv 100)

/-- `Node::decimicro_lon` (`src/elements.rs` lines 109-111). -/
def Node.decimicro_lon (b : BlockCtx) (n : NodeData) : Int :=
  wrap32 ((Node.nano_lon b n).tdiv 100)

/-- `DenseNode::nano_lat` (`src/dense.rs` lines 41-43). -/
def DenseNode.nano_lat (b : BlockCtx) (n : DenseNode) : Int :=
  wrap64 (b.lat_offset + b.granularity * n.lat)

/-- `DenseNode::nano_lon` (`src/dense.rs` lines 56-58). -/
def DenseNode.nano_lon (b : BlockCtx) (n : DenseNode) : Int :=
  wrap64 (b.lon_offset + b.granularity * n.lon)

/-- `DenseNode::lat` (`src/dense.rs` lines 36-38). -/
def DenseNode.latDeg (b : BlockCtx) (n : DenseNode) : Float :=
  1e-9 * Float.ofInt (DenseNode.nano_lat b n)

/-- `DenseNode::lon` (`src/dense.rs` lines 51-53). -/
def DenseNode.lonDeg (b : BlockCtx) (n : DenseNode) : Float :=
  1e-9 * Float.ofInt (DenseNode.nano_lon b n)

/-- `DenseNode::decimicro_lat` (`src/dense.rs` lines 46-48). -/
def DenseNode.decimicro_lat (b : BlockCtx) (n : DenseNode) : Int :=
  wrap32 ((DenseNode.nano_lat b n).tdiv 100)

/-- `DenseNode::decimicro_lon` (`src/dense.rs` lines 61-63). -/
def DenseNode.decimicro_lon (b : BlockCtx) (n : DenseNode) : Int :=
  wrap32 ((DenseNode.nano_lon b n).tdiv 100)

/-- An `osmformat::Way`: the fields read by the `Way` view. -/
structure WayData where
  id : Int
  keys : List Nat
  vals : List Nat
  refs : List Int
  lat : List Int
  lon : List Int
deriving DecidableEq, Repr

/-- `Way::refs` decoded to absolute node ids (`WayRefIter`,
`src/elements.rs` lines 332-348: running i64 sum starting at 0). -/
def Way.refsDecoded (w : WayData) : List Int := deltaDecode 0 w.refs

/-- An `osmformat::Relation`: the fields read by the `Relation` view.
`types` holds the raw i32 wire values of the `MemberType` enum, as stored
by rust-protobuf's `EnumOrUnknown` (which preserves unknown values). -/
structure RelData where
  id : Int
  keys : List Nat
  vals : List Nat
  roles_sid : List Int
  memids : List Int
  types : List Int
deriving DecidableEq, Repr

/-- The decoded member type (`src/elements.rs` lines 427-431). -/
inductive RelMemberType where
  | node
  | way
  | relationMember
deriving DecidableEq, Repr

/-- A Rust panic (here: `EnumOrUnknown::unwrap` aborting on an unknown
enum value). -/
inductive Panic where
  | panic
deriving DecidableEq, Repr

/-- The generated `MemberType` enum of `osmformat.proto` has the values
NODE = 0, WAY = 1, RELATION = 2; rust-protobuf's
`EnumOrUnknown::enum_value` recognises exactly these. -/
def memberTypeOfI32 (v : Int) : Option RelMemberType :=
  if v = 0 then some RelMemberType.node
  else if v = 1 then some RelMemberType.way
  else if v = 2 then some RelMemberType.relationMember
  else none

/-- `From<EnumOrUnknown<MemberType>> for RelMemberType`
(`src/elements.rs` lines 433-441): `rmt.unwrap()` panics when the stored
value is outside the generated enum, otherwise the three variants map
across.  `Except.error Panic.panic` models the panic. -/
def relMemberTypeFrom (v : Int) : Except Panic RelMemberType :=
  match memberTypeOfI32 v with
  | some mt => Except.ok mt
  | none => Except.error Panic.panic

/-- A decoded relation member (`src/elements.rs` lines 448-453). -/
structure RelMember where
  role_sid : Int
  member_id : Int
  member_type : RelMemberType
deriving DecidableEq, Repr

/-- State of `RelMemberIter` (`src/elements.rs` lines 464-470). -/
structure RelMemberIter where
  role_sids : List Int
  member_id_deltas : List Int
  member_types : List Int
  current_member_id : Int
deriving DecidableEq, Repr

/-- `RelMemberIter::new` (`src/elements.rs` lines 472-482). -/
def RelMemberIter.new (r : RelData) : RelMemberIter :=
  ⟨r.roles_sid, r.memids, r.types, 0⟩

/-- One call of `RelMemberIter::next` (`src/elements.rs` lines 484-509).
When all three arrays yield a value the member id accumulator advances and
the member is built; converting an unknown `member_type` value panics. -/
def RelMemberIter.next (s : RelMemberIter) :
    Except Panic (Option (RelMember × RelMemberIter)) :=
  match s.role_sids.head?, s.member_id_deltas.head?, s.member_types.head? with
  | some r, some d, some t =>
    let mid := s.current_member_id + d
    match relMemberTypeFrom t with
    | Except.ok mt =>
      Except.ok (some (⟨r, mid, mt⟩,
        ⟨s.role_sids.tail, s.member_id_deltas.tail, s.member_types.tail, mid⟩))
    | Except.error p => Except.error p
  | _, _, _ => Except.ok none

/-! ### Blob decoding and the framed blob reader, from `src/blob.rs` -/

/-- `MAX_BLOB_HEADER_SIZE` (`src/blob.rs` line 15): 64 KiB. -/
def MAX_BLOB_HEADER_SIZE : Nat := 64 * 1024

/-- `MAX_BLOB_MESSAGE_SIZE` (`src/blob.rs` line 18): 32 MiB. -/
def MAX_BLOB_MESSAGE_SIZE : Nat := 32 * 1024 * 1024

/-- The `fileformat::Blob` payload message: `raw` bytes or `zlib_data`
bytes (the fields `decode_blob` inspects via `has_raw`/`has_zlib_data`). -/
structure FFBlob where
  raw : Option (List Nat)
  zlib_data : Option (List Nat)
deriving DecidableEq, Repr

/-- The `fileformat::BlobHeader` message: blob type string and declared
payload size (`datasize`, an i32). -/
structure FFBlobHeader where
  type_ : String
  datasize : Int
deriving DecidableEq, Repr

/-- The error type of the blob layer (`BlobError` in `src/error.rs` plus
the protobuf and io variants of `ErrorKind` that the reader produces). -/
inductive ErrorM where
  | ioError
  | protobuf (location : String)
  | invalidHeaderSize
  | headerTooBig (size : Nat)
  | messageTooBig (size : Nat)
  | blobEmpty
deriving DecidableEq, Repr

/-- A protobuf parse failure of the inner block message. -/
inductive PErr where
  | parseFailed
deriving DecidableEq, Repr

/-- Embeds `decode_blob` (`src/blob.rs` lines 455-469).  The zlib codec
(`decompress`) and the inner protobuf parser (`parse`) are external
collaborators passed as parameters.  Raw path: parse directly when the
length is below the ceiling, else `MessageTooBig`.  Zlib path: the decoder
is wrapped in `take(MAX_BLOB_MESSAGE_SIZE)`, so the parser sees at most
32 MiB of decompressed output.  Neither field present: `BlobEmpty`. -/
def decode_blob {T : Type} (decompress : List Nat → List Nat)
    (parse : List Nat → Except PErr T) (blob : FFBlob) : Except ErrorM T :=
  match blob.raw with
  | some r =>
    if r.length < MAX_BLOB_MESSAGE_SIZE then
      (parse r).mapError (fun _ => ErrorM.protobuf "raw blob data")
    else
      Except.error (ErrorM.messageTooBig r.length)
  | none =>
    match blob.zlib_data with
    | some z =>
      (parse ((decompress z).take MAX_BLOB_MESSAGE_SIZE)).mapError
        (fun _ => ErrorM.protobuf "blob zlib data")
    | none => Except.error ErrorM.blobEmpty

/-- A positioned in-memory byte stream: the model of the `Read + Seek`
source underneath a `BlobReader`.  Reads past the end hit EOF; a pure
in-memory source produces no other I/O errors. -/
structure ByteStream where
  bytes : List Nat
  pos : Nat
deriving DecidableEq, Repr

/-- Number of bytes left before EOF. -/
def ByteStream.remaining (s : ByteStream) : Nat := s.bytes.length - s.pos

/-- `read_exact n`: all `n` bytes or an `UnexpectedEof` failure (`none`). -/
def ByteStream.readExact (s : ByteStream) (n : Nat) :
    Option (List Nat × ByteStream) :=
  if s.pos + n ≤ s.bytes.length then
    some ((s.bytes.drop s.pos).take n, ⟨s.bytes, s.pos + n⟩)
  else none

/-- A `Read::take(n)` sub-reader consumed to its end: up to `n` bytes. -/
def ByteStream.takeRead (s : ByteStream) (n : Nat) : List Nat × ByteStream :=
  ((s.bytes.drop s.pos).take n, ⟨s.bytes, min (s.pos + n) s.bytes.length⟩)

/-- Big-endian u32 from four bytes. -/
def beU32 : List Nat → Nat
  | [b0, b1, b2, b3] => ((b0 * 256 + b1) * 256 + b2) * 256 + b3
  | _ => 0

/-- Rust `datasize as u64` where `datasize: i32`: negative values
sign-extend and reinterpret to a huge unsigned count. -/
def datasizeU64 (d : Int) : Nat := (if 0 ≤ d then d else d + 2 ^ 64).toNat

/-- The wire parsers for the two `fileformat` messages (generated protobuf
code, an external collaborator): each consumes the bytes handed to it by
the bounded sub-reader and either yields the message or fails. -/
structure WireParsers where
  blobHeaderOfBytes : List Nat → Except PErr FFBlobHeader
  blobOfBytes : List Nat → Except PErr FFBlob

/-- State of a `BlobReader` (`src/blob.rs` lines 157-162): the source
stream, the tracked offset, and the terminal-error flag `last_blob_ok`. -/
structure BlobReaderState where
  stream : ByteStream
  offset : Option Nat
  last_blob_ok : Bool
deriving DecidableEq, Repr

/-- A `Blob` as produced by the reader (`src/blob.rs` lines 64-68). -/
structure BlobM where
  header : FFBlobHeader
  blob : FFBlob
  offset : Option Nat
deriving DecidableEq, Repr

/-- Embeds `BlobReader::read_blob_header` (`src/blob.rs` lines 189-230).
Reading the 4-byte size can only fail with `UnexpectedEof` on an in-memory
stream, which the source maps to `none` (end of iteration) — including
when 1 to 3 bytes remain (the TODO at line 199).  A size at or above
64 KiB fails with `HeaderTooBig`; then exactly `header_size` bytes are fed
to the header parser via `take`. -/
def read_blob_header (P : WireParsers) (s : BlobReaderState) :
    Option (Except ErrorM FFBlobHeader) × BlobReaderState :=
  match s.stream.readExact 4 with
  | none => (none, { s with offset := none })
  | some (bs, str1) =>
    let header_size := beU32 bs
    let s1 : BlobReaderState :=
      { s with stream := str1, offset := s.offset.map (· + 4) }
    if header_size ≥ MAX_BLOB_HEADER_SIZE then
      (some (Except.error (ErrorM.headerTooBig header_size)),
       { s1 with last_blob_ok := false })
    else
      let hbytes := (str1.takeRead header_size).1
      let str2 := (str1.takeRead header_size).2
      match P.blobHeaderOfBytes hbytes with
      | Except.error _ =>
        (some (Except.error (ErrorM.protobuf "blob header")),
         { s1 with stream := str2, offset := none, last_blob_ok := false })
      | Except.ok h =>
        (some (Except.ok h),
         { s1 with stream := str2, offset := s1.offset.map (· + header_size) })

/-- Embeds `<BlobReader as Iterator>::next` (`src/blob.rs` lines 262-295).
A reader whose last blob failed yields `none` forever; otherwise the
header is read and `datasize` bytes are fed to the blob parser. -/
def BlobReader.next (P : WireParsers) (s : BlobReaderState) :
    Option (Except ErrorM BlobM) × BlobReaderState :=
  if !s.last_blob_ok then (none, s)
  else
    let prev_offset := s.offset
    match read_blob_header P s with
    | (none, s1) => (none, s1)
    | (some (Except.error e), s1) => (some (Except.error e), s1)
    | (some (Except.ok h), s1) =>
      let ds := datasizeU64 h.datasize
      let bbytes := (s1.stream.takeRead ds).1
      let str2 := (s1.stream.takeRead ds).2
      match P.blobOfBytes bbytes with
      | Except.error _ =>
        (some (Except.error (ErrorM.protobuf "blob content")),
         { s1 with stream := str2, offset := none, last_blob_ok := false })
      | Except.ok b =>
        (some (Except.ok ⟨h, b, prev_offset⟩),
         { s1 with stream := str2, offset := s1.offset.map (· + ds) })

/-- Embeds `BlobReader::next_header_skip_blob` (`src/blob.rs` lines
406-428).  After the header, the body is skipped with a relative seek of
`datasize as i64`; on the in-memory stream the seek fails only when the
target position would be negative (`seek_raw` then clears the offset and
the error sets the terminal flag). -/
def BlobReader.next_header_skip_blob (P : WireParsers) (s : BlobReaderState) :
    Option (Except ErrorM (FFBlobHeader × Option Nat)) × BlobReaderState :=
  if !s.last_blob_ok then (none, s)
  else
    let prev_offset := s.offset
    match read_blob_header P s with
    | (none, s1) => (none, s1)
    | (some (Except.error e), s1) => (some (Except.error e), s1)
    | (some (Except.ok h), s1) =>
      let target : Int := (s1.stream.pos : Int) + h.datasize
      if target < 0 then
        (some (Except.error ErrorM.ioError),
         { s1 with offset := none, last_blob_ok := false })
      else
        (some (Except.ok (h, prev_offset)),
         { s1 with stream := ⟨s1.stream.bytes, target.toNat⟩,
                   offset := some target.toNat })

/-- The two public iteration entry points of a `BlobReader`. -/
inductive RCall where
  | nextCall
  | skipCall
deriving DecidableEq, Repr

/-- An item returned by either entry point. -/
inductive CallItem where
  | blobItem (b : BlobM)
  | headerItem (h : FFBlobHeader) (o : Option Nat)
deriving DecidableEq, Repr

/-- Dispatch one call to the reader. -/
def BlobReader.doCall (P : WireParsers) (c : RCall) (s : BlobReaderState) :
    Option (Except ErrorM CallItem) × BlobReaderState :=
  match c with
  | RCall.nextCall =>
    ((BlobReader.next P s).1.map (fun r => r.map CallItem.blobItem),
     (BlobReader.next P s).2)
  | RCall.skipCall =>
    ((BlobReader.next_header_skip_blob P s).1.map
      (fun r => r.map (fun hp => CallItem.headerItem hp.1 hp.2)),
     (BlobReader.next_header_skip_blob P s).2)

/-- Run a sequence of calls and check that every one returns `none`
(end of iteration). -/
def BlobReader.runReturnsNone (P : WireParsers) :
    List RCall → BlobReaderState → Bool
  | [], _ => true
  | c :: cs, s =>
    (BlobReader.doCall P c s).1.isNone &&
      BlobReader.runReturnsNone P cs (BlobReader.doCall P c s).2

/-! ### Blocks, groups, and the element readers, from `src/block.rs` and
`src/reader.rs` -/

/-- An `osmformat::PrimitiveGroup`: the four element containers. -/
structure PrimitiveGroup where
  nodes : List NodeData
  dense : DenseData
  ways : List WayData
  relations : List RelData
deriving DecidableEq, Repr

/-- An `osmformat::PrimitiveBlock`: block-wide context plus the group
list. -/
structure PrimitiveBlock where
  ctx : BlockCtx
  groups : List PrimitiveGroup
deriving DecidableEq, Repr

/-- The `Element` enum (`src/reader.rs` lines 193-207): each variant is a
view carrying its block context. -/
inductive ElementM where
  | node (b : PrimitiveBlock) (n : NodeData)
  | denseNode (b : PrimitiveBlock) (dn : DenseNode)
  | way (b : PrimitiveBlock) (w : WayData)
  | relationElem (b : PrimitiveBlock) (r : RelData)
deriving DecidableEq, Repr

/-- The decoded content of one blob (`BlobDecode`, `src/blob.rs` lines
45-53).  This model covers files whose blobs all decode; a decoding
failure would abort `for_each`/`par_map_reduce`/`read_ways_and_deps`
through `?` before further callbacks. -/
inductive BlobContentI where
  | header
  | unknown
  | data (b : PrimitiveBlock)
deriving DecidableEq, Repr

/-- The element sequence that `ElementReader::for_each` (`src/reader.rs`
lines 66-88) drives its closure over: per data blob, per group, sparse
nodes, then dense nodes, then ways, then relations. -/
def forEachElems (file : List BlobContentI) : List ElementM :=
  file.flatMap fun c =>
    match c with
    | BlobContentI.data b =>
      b.groups.flatMap fun g =>
        g.nodes.map (ElementM.node b) ++
        (denseNodesOf g.dense).map (ElementM.denseNode b) ++
        g.ways.map (ElementM.way b) ++
        g.relations.map (ElementM.relationElem b)
    | _ => []

/-- The per-blob element order of `ElementReader::par_map_reduce`
(`src/reader.rs` lines 131-153): all dense nodes across groups, then all
sparse nodes, then all ways, then all relations. -/
def parBlobElems (b : PrimitiveBlock) : List ElementM :=
  (b.groups.flatMap fun g => (denseNodesOf g.dense).map (ElementM.denseNode b)) ++
  (b.groups.flatMap fun g => g.nodes.map (ElementM.node b)) ++
  (b.groups.flatMap fun g => g.ways.map (ElementM.way b)) ++
  (b.groups.flatMap fun g => g.relations.map (ElementM.relationElem b))

/-- The elements of the whole file in `par_map_reduce`'s per-blob order,
blobs in stream order. -/
def parElems (file : List BlobContentI) : List ElementM :=
  file.flatMap fun c =>
    match c with
    | BlobContentI.data b => parBlobElems b
    | _ => []

/-- `iter.map(map_op).fold(identity(), reduce_op)`: the sequential
map-then-fold both readers use. -/
def mapFold {T : Type} (mp : ElementM → T) (t0 : T) (rd : T → T → T)
    (l : List ElementM) : T :=
  l.foldl (fun a e => rd a (mp e)) t0

/-- The per-blob partial result of `par_map_reduce`'s map stage: header
and unknown blobs contribute `identity()`, a data blob folds its elements
in `parBlobElems` order. -/
def blobPartial {T : Type} (mp : ElementM → T) (t0 : T) (rd : T → T → T)
    (c : BlobContentI) : T :=
  match c with
  | BlobContentI.data b => mapFold mp t0 rd (parBlobElems b)
  | _ => t0

/-- A reduction shape of rayon's `reduce`: contiguous blob ranges are
combined pairwise in stream order, with the identity element inserted at
arbitrary positions (`|| Ok(identity())`). -/
inductive RedTree where
  | leaf (c : BlobContentI)
  | idLeaf
  | node (l r : RedTree)
deriving Repr

/-- The blob sequence a reduction shape covers, in order. -/
def RedTree.flatten : RedTree → List BlobContentI
  | RedTree.leaf c => [c]
  | RedTree.idLeaf => []
  | RedTree.node l r => RedTree.flatten l ++ RedTree.flatten r

/-- The result `par_map_reduce` computes along a given reduction shape:
leaves are per-blob partials, inner nodes combine with `reduce_op`
(`src/reader.rs` lines 157-162, error-free case). -/
def RedTree.eval {T : Type} (mp : ElementM → T) (t0 : T) (rd : T → T → T) :
    RedTree → T
  | RedTree.leaf c => blobPartial mp t0 rd c
  | RedTree.idLeaf => t0
  | RedTree.node l r =>
    rd (RedTree.eval mp t0 rd l) (RedTree.eval mp t0 rd r)

/-! ### The indexed reader, from `src/indexed.rs` -/

/-- All ways of a block that a filter accepts, in the first-pass visiting
order of `read_ways_and_deps` (`src/indexed.rs` lines 286-298): groups in
order, ways in order. -/
def acceptedWaysOfBlock (P : PrimitiveBlock → WayData → Bool)
    (b : PrimitiveBlock) : List WayData :=
  b.groups.flatMap fun g => g.ways.filter (P b)

/-- The required node ids collected by the first pass: the delta-decoded
`refs` of every accepted way (`node_ids.extend(refs)`; the BTreeSet is
modelled as this list up to membership). -/
def requiredIds (file : List BlobContentI)
    (P : PrimitiveBlock → WayData → Bool) : List Int :=
  file.flatMap fun c =>
    match c with
    | BlobContentI.data b => (acceptedWaysOfBlock P b).flatMap Way.refsDecoded
    | _ => []

/-- The node ids of a block in the visiting order of
`update_element_id_ranges` (`src/indexed.rs` lines 189-207): per group,
sparse nodes then dense nodes. -/
def nodeIdsOfBlock (b : PrimitiveBlock) : List Int :=
  b.groups.flatMap fun g =>
    g.nodes.map NodeData.id ++ (denseNodesOf g.dense).map DenseNode.id

/-- One step of the min/max scan in `update_element_id_ranges`
(`check_min_max`, `src/indexed.rs` lines 190-193). -/
def checkMinMax (st : Option Int × Option Int) (id : Int) :
    Option Int × Option Int :=
  (some (st.1.elim id (fun x => Min.min x id)),
   some (st.2.elim id (fun x => Max.max x id)))

/-- The node id-range a data blob gets in the index (`IdRanges.node_ids`):
`none` when the blob holds no nodes. -/
def nodeRange (b : PrimitiveBlock) : Option (Int × Int) :=
  match (nodeIdsOfBlock b).foldl checkMinMax (none, none) with
  | (some lo, some hi) => some (lo, hi)
  | _ => none

/-- `range_included` (`src/indexed.rs` lines 26-28): does the required-id
set meet the inclusive range? -/
def rangeIncluded (lo hi : Int) (ids : List Int) : Bool :=
  ids.any fun x => decide (lo ≤ x) && decide (x ≤ hi)

/-- The second pass's per-node membership test: `binary_search` in the
sorted snapshot of the required ids restricted to the blob's range
(`src/indexed.rs` lines 307-324), extensionally membership in the
restriction. -/
def snapshotMem (ids : List Int) (lo hi : Int) (id : Int) : Bool :=
  decide (lo ≤ id) && decide (id ≤ hi) && ids.contains id

/-- The elements the second pass of `read_ways_and_deps` emits for one
data blob (`src/indexed.rs` lines 304-327): nothing unless the blob's
node range meets the required set; otherwise per group the sparse then
dense nodes whose id the snapshot contains. -/
def pass2EmitsBlock (S : List Int) (b : PrimitiveBlock) : List ElementM :=
  match nodeRange b with
  | none => []
  | some (lo, hi) =>
    if rangeIncluded lo hi S then
      b.groups.flatMap fun g =>
        ((g.nodes.filter fun n => snapshotMem S lo hi n.id).map (ElementM.node b)) ++
        (((denseNodesOf g.dense).filter fun dn => snapshotMem S lo hi dn.id).map
          (ElementM.denseNode b))
    else []

/-- Embeds `IndexedReader::read_ways_and_deps` (`src/indexed.rs` lines
264-330) on a fresh reader: the sequence of elements handed to
`element_callback`.  First pass over data blobs: accepted ways (emitted
as they are found, their refs joining the required set).  Second pass:
the nodes selected by the range gate and the snapshot search.  Header and
unknown blobs are skipped in both passes (blob type in pass one, absent
id-ranges in pass two). -/
def read_ways_and_deps (file : List BlobContentI)
    (P : PrimitiveBlock → WayData → Bool) : List ElementM :=
  (file.flatMap fun c =>
    match c with
    | BlobContentI.data b => (acceptedWaysOfBlock P b).map (ElementM.way b)
    | _ => []) ++
  (file.flatMap fun c =>
    match c with
    | BlobContentI.data b => pass2EmitsBlock (requiredIds file P) b
    | _ => [])

/-- The node and dense-node elements of the file in block/group order
(the universe the second pass selects from). -/
def allNodeElems (file : List BlobContentI) : List ElementM :=
  file.flatMap fun c =>
    match c with
    | BlobContentI.data b =>
      b.groups.flatMap fun g =>
        g.nodes.map (ElementM.node b) ++
        (denseNodesOf g.dense).map (ElementM.denseNode b)
    | _ => []

/-- The id of a node or dense-node element. -/
def ElementM.nodeId : ElementM → Option Int
  | ElementM.node _ n => some n.id
  | ElementM.denseNode _ dn => some dn.id
  | _ => none

/-- All node and dense-node ids of a file, in emission order. -/
def allNodeIds (file : List BlobContentI) : List Int :=
  (allNodeElems file).filterMap ElementM.nodeId

/-! ### Auxiliary definitions used by the statements below -/

/-- The state of a `DenseNodeIter` after `n` calls of `next` (each call
advances the three coordinate iterators whether or not it yields). -/
def DenseNodeIter.stateAfter : Nat → DenseNodeIter → DenseNodeIter
  | 0, s => s
  | n + 1, s => DenseNodeIter.stateAfter n (DenseNodeIter.next s).2

/-- All ways of a block, groups in order. -/
def blockWays (b : PrimitiveBlock) : List WayData :=
  b.groups.flatMap PrimitiveGroup.ways

/-- All sparse nodes of a block, groups in order. -/
def blockNodes (b : PrimitiveBlock) : List NodeData :=
  b.groups.flatMap PrimitiveGroup.nodes

/-- All decoded dense nodes of a block, groups in order. -/
def blockDense (b : PrimitiveBlock) : List DenseNode :=
  b.groups.flatMap fun g => denseNodesOf g.dense

/-- Does the element carry a node id that the given set contains? -/
def nodeIdInSet (S : List Int) (e : ElementM) : Bool :=
  (ElementM.nodeId e).elim false fun i => S.contains i

/-- The node ids among a list of emitted elements, in order. -/
def emittedNodeIds (l : List ElementM) : List Int :=
  l.filterMap ElementM.nodeId

/-- A numeric tag distinguishing the four element categories (used to
observe visiting order through a fold). -/
def elemTag : ElementM → Nat
  | ElementM.node _ _ => 0
  | ElementM.denseNode _ _ => 1
  | ElementM.way _ _ => 2
  | ElementM.relationElem _ _ => 3

/-- A block holding one group with one sparse node (id 1) and one dense
node (id 7): the smallest block on which the two element readers visit in
different orders. -/
def c1Block : PrimitiveBlock :=
  ⟨⟨[], 100, 0, 0, 1000⟩,
   [⟨[⟨1, [], [], 0, 0⟩], ⟨[7], [0], [0], [], ⟨[], [], [], [], [], []⟩⟩, [], []⟩]⟩


/-! ### Helper lemmas: dense node iteration -/

theorem deltaDecode_length (acc : Int) (l : List Int) :
    (deltaDecode acc l).length = l.length := by
  induction l generalizing acc with
  | nil => simp [deltaDecode]
  | cons d rest ih => simp [deltaDecode, ih]

theorem denseRunFuel_spec (dids : List Int) :
    ∀ (dlats dlons : List Int) (cid clat clon : Int) (kvs : List Int)
      (ii : Option DenseNodeInfoIter),
    (DenseNodeIter.runFuel dids.length
        ⟨dids, cid, dlats, clat, dlons, clon, kvs, ii⟩).map DenseNode.id
      = deltaDecode cid
          (dids.take (min (min dids.length dlats.length) dlons.length)) ∧
    (DenseNodeIter.runFuel dids.length
        ⟨dids, cid, dlats, clat, dlons, clon, kvs, ii⟩).map DenseNode.lat
      = deltaDecode clat
          (dlats.take (min (min dids.length dlats.length) dlons.length)) ∧
    (DenseNodeIter.runFuel dids.length
        ⟨dids, cid, dlats, clat, dlons, clon, kvs, ii⟩).map DenseNode.lon
      = deltaDecode clon
          (dlons.take (min (min dids.length dlats.length) dlons.length)) ∧
    (DenseNodeIter.runFuel dids.length
        ⟨dids, cid, dlats, clat, dlons, clon, kvs, ii⟩).length
      = min (min dids.length dlats.length) dlons.length := by
  induction dids with
  | nil =>
    intro dlats dlons cid clat clon kvs ii
    simp [DenseNodeIter.runFuel, deltaDecode]
  | cons did ds ih =>
    intro dlats dlons cid clat clon kvs ii
    cases dlats with
    | nil =>
      simp [DenseNodeIter.runFuel, DenseNodeIter.next, deltaDecode]
    | cons dlat ls =>
      cases dlons with
      | nil =>
        simp [DenseNodeIter.runFuel, DenseNodeIter.next, deltaDecode]
      | cons dlon os =>
        have hmin : min (min (ds.length + 1) (ls.length + 1)) (os.length + 1)
            = min (min ds.length ls.length) os.length + 1 := by omega
        cases ii with
        | none =>
          have ihx := ih ls os (cid + did) (clat + dlat) (clon + dlon)
            (denseTagsSplit kvs).2 none
          simp only [List.length_cons, DenseNodeIter.runFuel,
            DenseNodeIter.next, List.head?_cons, List.tail_cons, hmin,
            List.take_succ_cons, deltaDecode, List.map_cons]
          exact ⟨by rw [← ihx.1], by rw [← ihx.2.1], by rw [← ihx.2.2.1],
            by rw [ihx.2.2.2]⟩
        | some it =>
          have ihx := ih ls os (cid + did) (clat + dlat) (clon + dlon)
            (denseTagsSplit kvs).2 (some (DenseNodeInfoIter.next it).2)
          simp only [List.length_cons, DenseNodeIter.runFuel,
            DenseNodeIter.next, List.head?_cons, List.tail_cons, hmin,
            List.take_succ_cons, deltaDecode, List.map_cons]
          exact ⟨by rw [← ihx.1], by rw [← ihx.2.1], by rw [← ihx.2.2.1],
            by rw [ihx.2.2.2]⟩

theorem denseNext_snd_lists (s : DenseNodeIter) :
    (DenseNodeIter.next s).2.dids = s.dids.tail ∧
    (DenseNodeIter.next s).2.dlats = s.dlats.tail ∧
    (DenseNodeIter.next s).2.dlons = s.dlons.tail := by
  obtain ⟨dids, cid, dlats, clat, dlons, clon, kvs, ii⟩ := s
  cases ii <;> cases dids <;> cases dlats <;> cases dlons <;>
    simp [DenseNodeIter.next]

theorem denseStateAfter_lists (n : Nat) :
    ∀ s : DenseNodeIter,
    (DenseNodeIter.stateAfter n s).dids = s.dids.drop n ∧
    (DenseNodeIter.stateAfter n s).dlats = s.dlats.drop n ∧
    (DenseNodeIter.stateAfter n s).dlons = s.dlons.drop n := by
  induction n with
  | zero => intro s; simp [DenseNodeIter.stateAfter]
  | succ n ih =>
    intro s
    have h := denseNext_snd_lists s
    have h2 := ih (DenseNodeIter.next s).2
    simp only [DenseNodeIter.stateAfter]
    rw [h2.1, h2.2.1, h2.2.2, h.1, h.2.1, h.2.2]
    refine ⟨?_, ?_, ?_⟩ <;>
      rw [← List.drop_one, List.drop_drop] <;> rw [Nat.add_comm]

theorem denseNext_none_of_exhausted (s : DenseNodeIter)
    (h : s.dids.head? = none ∨ s.dlats.head? = none ∨ s.dlons.head? = none) :
    (DenseNodeIter.next s).1 = none := by
  obtain ⟨dids, cid, dlats, clat, dlons, clon, kvs, ii⟩ := s
  cases ii <;> cases dids <;> cases dlats <;> cases dlons <;>
    simp_all [DenseNodeIter.next]

/-- C10: even when the dense-node arrays `id`, `lat`, `lon` (or the
`DenseInfo` arrays) have unequal lengths, `DenseNodeIter::next` is total:
it yields exactly `min(len id, len lat, len lon)` nodes, each fully
populated from within the bounds of the delta arrays (the i-th id/lat/lon
is the i-th running sum of the corresponding prefix), then returns `None`
on every further call — while `size_hint` (and so
`ExactSizeIterator::len`) still reports the full `id`-array length. -/
theorem C10_dense_iter_unequal_arrays (d : DenseData) :
    (denseNodesOf d).length = min (min d.id.length d.lat.length) d.lon.length ∧
    (denseNodesOf d).map DenseNode.id
      = deltaDecode 0
          (d.id.take (min (min d.id.length d.lat.length) d.lon.length)) ∧
    (denseNodesOf d).map DenseNode.lat
      = deltaDecode 0
          (d.lat.take (min (min d.id.length d.lat.length) d.lon.length)) ∧
    (denseNodesOf d).map DenseNode.lon
      = deltaDecode 0
          (d.lon.take (min (min d.id.length d.lat.length) d.lon.length)) ∧
    DenseNodeIter.sizeHint (DenseNodeIter.new d) = d.id.length ∧
    (∀ k, min (min d.id.length d.lat.length) d.lon.length ≤ k →
      (DenseNodeIter.next (DenseNodeIter.stateAfter k (DenseNodeIter.new d))).1
        = none) := by
  have hs := denseRunFuel_spec d.id d.lat d.lon 0 0 0 d.keys_vals
    (some (DenseNodeInfoIter.new d.denseinfo))
  refine ⟨hs.2.2.2, hs.1, hs.2.1, hs.2.2.1, rfl, ?_⟩
  intro k hk
  have hl := denseStateAfter_lists k (DenseNodeIter.new d)
  apply denseNext_none_of_exhausted
  have hcase : d.id.length ≤ k ∨ d.lat.length ≤ k ∨ d.lon.length ≤ k := by
    omega
  rcases hcase with hc | hc | hc
  · left
    rw [hl.1]
    simp [DenseNodeIter.new, List.drop_eq_nil_of_le hc]
  · right; left
    rw [hl.2.1]
    simp [DenseNodeIter.new, List.drop_eq_nil_of_le hc]
  · right; right
    rw [hl.2.2]
    simp [DenseNodeIter.new, List.drop_eq_nil_of_le hc]

/-- Witness for C10 at a concrete `DenseNodes` message with unequal
array lengths (two ids, one lat delta, three lon deltas): exactly one
node comes out and the iterator is exhausted from the first call on. -/
theorem C10_dense_iter_unequal_arrays_witness :
    min (min 2 1) 3 ≤ 1 ∧
    (DenseNodeIter.next (DenseNodeIter.stateAfter 1 (DenseNodeIter.new
      ⟨[1, 2], [5], [5, 6, 7], [], ⟨[], [], [], [], [], []⟩⟩))).1 = none :=
  ⟨by decide,
   (C10_dense_iter_unequal_arrays
     ⟨[1, 2], [5], [5, 6, 7], [], ⟨[], [], [], [], [], []⟩⟩).2.2.2.2.2 1
     (by decide)⟩

/-! ### Helper lemmas: the dense tag cursor -/

theorem denseTagsSplit_terminated (ps : List (Int × Int)) (rest : List Int)
    (hk : ∀ p ∈ ps, p.1 ≠ 0) :
    denseTagsSplit (flatPairs ps ++ 0 :: rest) = (flatPairs ps, rest) := by
  induction ps with
  | nil =>
    cases rest <;> simp [flatPairs, denseTagsSplit]
  | cons p ps ih =>
    obtain ⟨k, v⟩ := p
    have hk0 : k ≠ 0 := hk (k, v) (by simp)
    have ihx := ih fun q hq => hk q (by simp [hq])
    simp only [flatPairs, List.flatMap_cons, List.cons_append, List.nil_append,
      List.append_assoc] at ihx ⊢
    simp [denseTagsSplit, hk0, ihx]

theorem denseTagsSplit_unterminated (ps : List (Int × Int))
    (hk : ∀ p ∈ ps, p.1 ≠ 0) :
    denseTagsSplit (flatPairs ps) = (flatPairs ps, []) := by
  induction ps with
  | nil => simp [flatPairs, denseTagsSplit]
  | cons p ps ih =>
    obtain ⟨k, v⟩ := p
    have hk0 : k ≠ 0 := hk (k, v) (by simp)
    have ihx := ih fun q hq => hk q (by simp [hq])
    simp only [flatPairs, List.flatMap_cons, List.cons_append,
      List.nil_append] at ihx ⊢
    simp [denseTagsSplit, hk0, ihx]

theorem denseTagsSplit_keys_nonzero (l : List Int) :
    ∃ ps : List (Int × Int),
      (denseTagsSplit l).1 = flatPairs ps ∧ ∀ p ∈ ps, p.1 ≠ 0 := by
  induction l using denseTagsSplit.induct with
  | case1 => exact ⟨[], by simp [denseTagsSplit, flatPairs]⟩
  | case2 x => exact ⟨[], by simp [denseTagsSplit, flatPairs]⟩
  | case3 x y rest hx ih =>
    obtain ⟨ps, hps, hk⟩ := ih
    refine ⟨(x, y) :: ps, ?_, ?_⟩
    · simp only [denseTagsSplit, if_pos hx, flatPairs, List.flatMap_cons,
        List.cons_append, List.nil_append]
      simp only [flatPairs] at hps
      simp [hps]
    · intro p hp
      rcases List.mem_cons.mp hp with h | h
      · subst h; exact hx
      · exact hk p h
  | case4 x y rest hx =>
    exact ⟨[], by simp [denseTagsSplit, if_neg hx, flatPairs]⟩

theorem denseNext_fst_tags (s : DenseNodeIter) (node : DenseNode)
    (h : (DenseNodeIter.next s).1 = some node) :
    node.keys_vals_indices = (denseTagsSplit s.keys_vals).1 ∧
    (DenseNodeIter.next s).2.keys_vals = (denseTagsSplit s.keys_vals).2 := by
  obtain ⟨dids, cid, dlats, clat, dlons, clon, kvs, ii⟩ := s
  cases ii <;> cases dids <;> cases dlats <;> cases dlons <;>
    simp_all [DenseNodeIter.next] <;> simp [← h]

theorem denseRunFuel_mem_tags (fuel : Nat) :
    ∀ (s : DenseNodeIter) (node : DenseNode),
    node ∈ DenseNodeIter.runFuel fuel s →
    ∃ ps : List (Int × Int),
      node.keys_vals_indices = flatPairs ps ∧ ∀ p ∈ ps, p.1 ≠ 0 := by
  induction fuel with
  | zero => intro s node h; simp [DenseNodeIter.runFuel] at h
  | succ n ih =>
    intro s node h
    rw [DenseNodeIter.runFuel] at h
    rcases hn : (DenseNodeIter.next s) with ⟨r, s2⟩
    rw [hn] at h
    cases r with
    | none => simp at h
    | some nd =>
      rcases List.mem_cons.mp h with h | h
      · subst h
        have ht := denseNext_fst_tags s node (by rw [hn])
        obtain ⟨ps, hps, hk⟩ := denseTagsSplit_keys_nonzero s.keys_vals
        exact ⟨ps, ht.1.trans hps, hk⟩
      · exact ih s2 node h

theorem denseRunFuel_runs (runs : List (List (Int × Int))) :
    ∀ (dids dlats dlons : List Int) (cid clat clon : Int)
      (ii : Option DenseNodeInfoIter),
    dids.length = runs.length → dlats.length = runs.length →
    dlons.length = runs.length →
    (∀ ps ∈ runs, ∀ p ∈ ps, p.1 ≠ 0) →
    (DenseNodeIter.runFuel dids.length
        ⟨dids, cid, dlats, clat, dlons, clon,
         (runs.map fun ps => flatPairs ps ++ [0]).flatten, ii⟩).map
      DenseNode.keys_vals_indices = runs.map flatPairs := by
  induction runs with
  | nil =>
    intro dids dlats dlons cid clat clon ii h1 h2 h3 _
    rw [List.length_eq_zero.mp h1]
    simp [DenseNodeIter.runFuel]
  | cons ps rs ih =>
    intro dids dlats dlons cid clat clon ii h1 h2 h3 hk
    cases dids with
    | nil => simp at h1
    | cons did ds =>
    cases dlats with
    | nil => simp at h2
    | cons dlat ls =>
    cases dlons with
    | nil => simp at h3
    | cons dlon os =>
    have hsplit := denseTagsSplit_terminated ps
      ((rs.map fun q => flatPairs q ++ [0]).flatten)
      (hk ps (by simp))
    have hkrs : ∀ q ∈ rs, ∀ p ∈ q, p.1 ≠ 0 := fun q hq => hk q (by simp [hq])
    simp only [List.length_cons] at h1 h2 h3
    cases ii with
    | none =>
      have ihx := ih ds ls os (cid + did) (clat + dlat) (clon + dlon) none
        (by omega) (by omega) (by omega) hkrs
      simp only [List.length_cons, DenseNodeIter.runFuel, DenseNodeIter.next,
        List.head?_cons, List.tail_cons, List.map_cons, List.flatten_cons,
        List.append_assoc, List.singleton_append, hsplit]
      rw [ihx]
    | some it =>
      have ihx := ih ds ls os (cid + did) (clat + dlat) (clon + dlon)
        (some (DenseNodeInfoIter.next it).2)
        (by omega) (by omega) (by omega) hkrs
      simp only [List.length_cons, DenseNodeIter.runFuel, DenseNodeIter.next,
        List.head?_cons, List.tail_cons, List.map_cons, List.flatten_cons,
        List.append_assoc, List.singleton_append, hsplit]
      rw [ihx]

/-- C7: dense tags come from the single shared flat `keys_vals` array via
a cursor.  (A) When the remainder holds a run of pairs with nonzero keys
followed by a `0` terminator, the next node receives exactly those pairs
and the cursor moves past the `0`.  (B) A final run without terminator is
consumed to the end of the array and (C) once the array is exhausted every
further node has no tags.  (D) For a whole well-formed message the i-th
node receives the i-th run.  (E) No yielded tag run ever contains a pair
with key index 0. -/
theorem C7_dense_tags_cursor :
    (∀ (did dlat dlon cid clat clon : Int) (ds ls os : List Int)
       (ii : Option DenseNodeInfoIter) (ps : List (Int × Int))
       (rest : List Int), (∀ p ∈ ps, p.1 ≠ 0) →
       ((DenseNodeIter.next ⟨did :: ds, cid, dlat :: ls, clat, dlon :: os,
           clon, flatPairs ps ++ 0 :: rest, ii⟩).1.map
         DenseNode.keys_vals_indices = some (flatPairs ps)) ∧
       (DenseNodeIter.next ⟨did :: ds, cid, dlat :: ls, clat, dlon :: os,
           clon, flatPairs ps ++ 0 :: rest, ii⟩).2.keys_vals = rest) ∧
    (∀ (did dlat dlon cid clat clon : Int) (ds ls os : List Int)
       (ii : Option DenseNodeInfoIter) (ps : List (Int × Int)),
       (∀ p ∈ ps, p.1 ≠ 0) →
       ((DenseNodeIter.next ⟨did :: ds, cid, dlat :: ls, clat, dlon :: os,
           clon, flatPairs ps, ii⟩).1.map
         DenseNode.keys_vals_indices = some (flatPairs ps)) ∧
       (DenseNodeIter.next ⟨did :: ds, cid, dlat :: ls, clat, dlon :: os,
           clon, flatPairs ps, ii⟩).2.keys_vals = []) ∧
    (∀ (did dlat dlon cid clat clon : Int) (ds ls os : List Int)
       (ii : Option DenseNodeInfoIter),
       ((DenseNodeIter.next ⟨did :: ds, cid, dlat :: ls, clat, dlon :: os,
           clon, [], ii⟩).1.map DenseNode.keys_vals_indices = some []) ∧
       (DenseNodeIter.next ⟨did :: ds, cid, dlat :: ls, clat, dlon :: os,
           clon, [], ii⟩).2.keys_vals = []) ∧
    (∀ (d : DenseData) (runs : List (List (Int × Int))),
       d.keys_vals = (runs.map fun ps => flatPairs ps ++ [0]).flatten →
       d.id.length = runs.length → d.lat.length = runs.length →
       d.lon.length = runs.length →
       (∀ ps ∈ runs, ∀ p ∈ ps, p.1 ≠ 0) →
       (denseNodesOf d).map DenseNode.keys_vals_indices = runs.map flatPairs) ∧
    (∀ (d : DenseData) (node : DenseNode), node ∈ denseNodesOf d →
       ∃ ps : List (Int × Int),
         node.keys_vals_indices = flatPairs ps ∧ ∀ p ∈ ps, p.1 ≠ 0) := by
  refine ⟨?_, ?_, ?_, ?_, ?_⟩
  · intro did dlat dlon cid clat clon ds ls os ii ps rest hk
    cases ii <;>
      simp [DenseNodeIter.next, denseTagsSplit_terminated ps rest hk]
  · intro did dlat dlon cid clat clon ds ls os ii ps hk
    cases ii <;>
      simp [DenseNodeIter.next, denseTagsSplit_unterminated ps hk]
  · intro did dlat dlon cid clat clon ds ls os ii
    cases ii <;> simp [DenseNodeIter.next, denseTagsSplit]
  · intro d runs hkv h1 h2 h3 hk
    obtain ⟨ids, lats, lons, kvs, di⟩ := d
    simp only at hkv h1 h2 h3
    subst hkv
    exact denseRunFuel_runs runs ids lats lons 0 0 0
      (some (DenseNodeInfoIter.new di)) h1 h2 h3 hk
  · intro d node h
    exact denseRunFuel_mem_tags d.id.length (DenseNodeIter.new d) node h

/-- Witness for C7 at a concrete message: two dense nodes whose shared
tag array is `[3, 4, 0, 5, 6]` — the first node gets the pair (3, 4) and
the cursor passes the terminator, the second gets the unterminated final
pair (5, 6). -/
theorem C7_dense_tags_cursor_witness :
    (∀ p ∈ [((3 : Int), (4 : Int))], p.1 ≠ 0) ∧
    ((DenseNodeIter.next ⟨[1, 1], 0, [2, 2], 0, [3, 3], 0,
        flatPairs [(3, 4)] ++ 0 :: [5, 6], none⟩).1.map
      DenseNode.keys_vals_indices = some (flatPairs [(3, 4)])) ∧
    (DenseNodeIter.next ⟨[1, 1], 0, [2, 2], 0, [3, 3], 0,
        flatPairs [(3, 4)] ++ 0 :: [5, 6], none⟩).2.keys_vals = [5, 6] :=
  ⟨by decide,
   (C7_dense_tags_cursor.1 1 2 3 0 0 0 [1] [2] [3] none [(3, 4)] [5, 6]
     (by decide)).1,
   (C7_dense_tags_cursor.1 1 2 3 0 0 0 [1] [2] [3] none [(3, 4)] [5, 6]
     (by decide)).2⟩

/-! ### Helper lemmas: machine-integer wrap-around -/

theorem wrap64_eq_self (x : Int) (h1 : -(2 ^ 63) ≤ x) (h2 : x < 2 ^ 63) :
    wrap64 x = x := by
  unfold wrap64
  rw [Int.emod_eq_of_lt (by omega) (by omega)]
  omega

theorem wrap32_eq_self (x : Int) (h1 : -(2 ^ 31) ≤ x) (h2 : x < 2 ^ 31) :
    wrap32 x = x := by
  unfold wrap32
  rw [Int.emod_eq_of_lt (by omega) (by omega)]
  omega

/-- C8: for any node, sparse or dense, in a block with granularity `g`
and offsets `o_lat`/`o_lon`: `nano_lat()` is exactly
`o_lat + g * lat_raw` (in i64 arithmetic, exact whenever the value fits),
`lat()` is `1e-9 * nano_lat` converted to f64, and `decimicro_lat()` is
`nano_lat / 100` truncated toward zero (`Int.tdiv`), whenever that fits
an i32 — and symmetrically for longitude. -/
theorem C8_coordinate_reconstruction (b : BlockCtx) (n : NodeData)
    (dn : DenseNode)
    (hlat : -(2 ^ 63) ≤ b.lat_offset + b.granularity * n.lat ∧
      b.lat_offset + b.granularity * n.lat < 2 ^ 63 ∧
      -(2 ^ 31) ≤ (b.lat_offset + b.granularity * n.lat).tdiv 100 ∧
      (b.lat_offset + b.granularity * n.lat).tdiv 100 < 2 ^ 31)
    (hlon : -(2 ^ 63) ≤ b.lon_offset + b.granularity * n.lon ∧
      b.lon_offset + b.granularity * n.lon < 2 ^ 63 ∧
      -(2 ^ 31) ≤ (b.lon_offset + b.granularity * n.lon).tdiv 100 ∧
      (b.lon_offset + b.granularity * n.lon).tdiv 100 < 2 ^ 31)
    (hdlat : -(2 ^ 63) ≤ b.lat_offset + b.granularity * dn.lat ∧
      b.lat_offset + b.granularity * dn.lat < 2 ^ 63 ∧
      -(2 ^ 31) ≤ (b.lat_offset + b.granularity * dn.lat).tdiv 100 ∧
      (b.lat_offset + b.granularity * dn.lat).tdiv 100 < 2 ^ 31)
    (hdlon : -(2 ^ 63) ≤ b.lon_offset + b.granularity * dn.lon ∧
      b.lon_offset + b.granularity * dn.lon < 2 ^ 63 ∧
      -(2 ^ 31) ≤ (b.lon_offset + b.granularity * dn.lon).tdiv 100 ∧
      (b.lon_offset + b.granularity * dn.lon).tdiv 100 < 2 ^ 31) :
    Node.nano_lat b n = b.lat_offset + b.granularity * n.lat ∧
    Node.nano_lon b n = b.lon_offset + b.granularity * n.lon ∧
    Node.decimicro_lat b n = (Node.nano_lat b n).tdiv 100 ∧
    Node.decimicro_lon b n = (Node.nano_lon b n).tdiv 100 ∧
    Node.lat b n = 1e-9 * Float.ofInt (Node.nano_lat b n) ∧
    Node.lon b n = 1e-9 * Float.ofInt (Node.nano_lon b n) ∧
    DenseNode.nano_lat b dn = b.lat_offset + b.granularity * dn.lat ∧
    DenseNode.nano_lon b dn = b.lon_offset + b.granularity * dn.lon ∧
    DenseNode.decimicro_lat b dn = (DenseNode.nano_lat b dn).tdiv 100 ∧
    DenseNode.decimicro_lon b dn = (DenseNode.nano_lon b dn).tdiv 100 ∧
    DenseNode.latDeg b dn = 1e-9 * Float.ofInt (DenseNode.nano_lat b dn) ∧
    DenseNode.lonDeg b dn = 1e-9 * Float.ofInt (DenseNode.nano_lon b dn) := by
  obtain ⟨ha1, ha2, ha3, ha4⟩ := hlat
  obtain ⟨hb1, hb2, hb3, hb4⟩ := hlon
  obtain ⟨hc1, hc2, hc3, hc4⟩ := hdlat
  obtain ⟨hd1, hd2, hd3, hd4⟩ := hdlon
  have e1 : Node.nano_lat b n = b.lat_offset + b.granularity * n.lat :=
    wrap64_eq_self _ ha1 ha2
  have e2 : Node.nano_lon b n = b.lon_offset + b.granularity * n.lon :=
    wrap64_eq_self _ hb1 hb2
  have e3 : DenseNode.nano_lat b dn = b.lat_offset + b.granularity * dn.lat :=
    wrap64_eq_self _ hc1 hc2
  have e4 : DenseNode.nano_lon b dn = b.lon_offset + b.granularity * dn.lon :=
    wrap64_eq_self _ hd1 hd2
  refine ⟨e1, e2, ?_, ?_, rfl, rfl, e3, e4, ?_, ?_, rfl, rfl⟩
  · unfold Node.decimicro_lat
    rw [e1]
    exact wrap32_eq_self _ ha3 ha4
  · unfold Node.decimicro_lon
    rw [e2]
    exact wrap32_eq_self _ hb3 hb4
  · unfold DenseNode.decimicro_lat
    rw [e3]
    exact wrap32_eq_self _ hc3 hc4
  · unfold DenseNode.decimicro_lon
    rw [e4]
    exact wrap32_eq_self _ hd3 hd4

/-- Witness for C8 at the fixture block values (granularity 100, zero
offsets) and the fixture node 106 coordinates: `nano_lat` is exactly
52119923500 nanodegrees and `decimicro_lat` is 521199235. -/
theorem C8_coordinate_reconstruction_witness :
    -(2 ^ 63) ≤ (0 : Int) + 100 * 521199235 ∧
    Node.nano_lat ⟨[], 100, 0, 0, 1000⟩ ⟨106, [], [], 521199235, 116256446⟩
      = 52119923500 ∧
    Node.decimicro_lat ⟨[], 100, 0, 0, 1000⟩
      ⟨106, [], [], 521199235, 116256446⟩ = 521199235 := by
  have h := C8_coordinate_reconstruction ⟨[], 100, 0, 0, 1000⟩
    ⟨106, [], [], 521199235, 116256446⟩ ⟨108, 0, 0, [], none⟩
    (by refine ⟨by decide, by decide, by decide, by decide⟩)
    (by refine ⟨by decide, by decide, by decide, by decide⟩)
    (by refine ⟨by decide, by decide, by decide, by decide⟩)
    (by refine ⟨by decide, by decide, by decide, by decide⟩)
  refine ⟨by decide, h.1.trans (by decide), ?_⟩
  rw [h.2.2.1, h.1]
  decide

/-! ### Helper lemmas: tag iterators -/

theorem tagIterRun_zip (u : Utf8Decoder) (st : List ByteStr)
    (keys : List Nat) :
    ∀ vals : List Nat,
    TagIter.run u st (min keys.length vals.length) ⟨keys, vals⟩
      = (keys.zip vals).map fun kv =>
          get_stringtable_key_value u st (some kv.1) (some kv.2) := by
  induction keys with
  | nil => intro vals; simp [TagIter.run]
  | cons k ks ih =>
    intro vals
    cases vals with
    | nil => simp [TagIter.run]
    | cons v vs =>
      have hmin : min (ks.length + 1) (vs.length + 1)
          = min ks.length vs.length + 1 := by omega
      simp only [List.length_cons, hmin, TagIter.run, TagIter.next,
        List.head?_cons, List.tail_cons, List.zip_cons_cons, List.map_cons]
      rw [ih vs]

theorem denseTagRun_chunk2 (u : Utf8Decoder) (st : List ByteStr)
    (l : List Int) :
    DenseTagIter.run u st ((l.length + 1) / 2) l
      = (chunk2 l).map fun p =>
          get_stringtable_key_value u st (some (usizeOfI32 p.1))
            (p.2.map usizeOfI32) := by
  induction l using chunk2.induct with
  | case1 => simp [DenseTagIter.run, chunk2]
  | case2 x => simp [DenseTagIter.run, DenseTagIter.next, chunk2]
  | case3 x y rest ih =>
    have hlen : ((x :: y :: rest).length + 1) / 2
        = (rest.length + 1) / 2 + 1 := by
      simp only [List.length_cons]
      omega
    rw [hlen]
    simp only [DenseTagIter.run, DenseTagIter.next, List.head?_cons,
      List.tail_cons, chunk2, List.map_cons]
    rw [ih]
    rfl

/-- C6: for every element tag iterator, a key/value index pair that is out
of stringtable bounds or refers to a non-UTF-8 entry yields no tag — the
result of iterating all pairs is the pointwise resolution of the zipped
index arrays, so an invalid pair contributes `none` while every
subsequent pair is still processed on its own; the iterator returns plain
options (it cannot fail), and the same holds for the dense-node tag
iterator over its flat pair array. -/
theorem C6_tag_pair_skipped :
    (∀ (u : Utf8Decoder) (st : List ByteStr) (keys vals : List Nat),
      TagIter.run u st (min keys.length vals.length) ⟨keys, vals⟩
        = (keys.zip vals).map fun kv =>
            get_stringtable_key_value u st (some kv.1) (some kv.2)) ∧
    (∀ (u : Utf8Decoder) (st : List ByteStr) (keys vals : List Nat)
       (i : Nat) (k v : Nat), (keys.zip vals)[i]? = some (k, v) →
      (TagIter.run u st (min keys.length vals.length) ⟨keys, vals⟩)[i]?
        = some (get_stringtable_key_value u st (some k) (some v))) ∧
    (∀ (u : Utf8Decoder) (st : List ByteStr) (l : List Int),
      DenseTagIter.run u st ((l.length + 1) / 2) l
        = (chunk2 l).map fun p =>
            get_stringtable_key_value u st (some (usizeOfI32 p.1))
              (p.2.map usizeOfI32)) := by
  refine ⟨fun u st keys vals => tagIterRun_zip u st keys vals, ?_,
    fun u st l => denseTagRun_chunk2 u st l⟩
  intro u st keys vals i k v h
  rw [tagIterRun_zip u st keys vals, List.getElem?_map, h]
  rfl

/-- Witness for C6: stringtable `[[], [97]]`, a decoder that accepts only
the empty string; the first pair (5, 6) is out of bounds and yields no
tag, while the following valid pair (0, 0) still resolves. -/
theorem C6_tag_pair_skipped_witness :
    (([5, 0].zip [6, 0])[1]? = some ((0 : Nat), (0 : Nat))) ∧
    (TagIter.run (fun bs => if bs = [] then some "" else none) [[], [97]]
        (min 2 2) ⟨[5, 0], [6, 0]⟩)[1]? = some (some ("", "")) :=
  ⟨by decide,
   (C6_tag_pair_skipped.2.1 (fun bs => if bs = [] then some "" else none)
     [[], [97]] [5, 0] [6, 0] 1 0 0 (by decide)).trans (by decide)⟩

/-- C5 counterexample: a relation whose `types` array holds the unknown
enum value 3.  The member iterator does not surface an error value for
that member — `EnumOrUnknown::unwrap` panics — refuting the claim that
iteration "does not panic" and returns an error to the caller (its item
type `RelMember` has no error channel at all). -/
theorem C5_unknown_member_type_panics :
    RelMemberIter.next ⟨[0], [0], [3], 0⟩ = Except.error Panic.panic ∧
    memberTypeOfI32 3 = none :=
  ⟨rfl, rfl⟩

/-- C5 amended: a relation member whose `types` value lies outside the
known set {NODE = 0, WAY = 1, RELATION = 2} makes the member iterator
panic when it reaches that member (the value is neither silently coerced
nor returned as a recoverable error); members with known values are
decoded to the matching variant with the delta-summed member id. -/
theorem C5_unknown_member_type_panics_amended :
    (∀ (r d t cur : Int) (rs ds ts : List Int),
      ¬(t = 0 ∨ t = 1 ∨ t = 2) →
      RelMemberIter.next ⟨r :: rs, d :: ds, t :: ts, cur⟩
        = Except.error Panic.panic) ∧
    (∀ (r d t cur : Int) (rs ds ts : List Int) (mt : RelMemberType),
      memberTypeOfI32 t = some mt →
      RelMemberIter.next ⟨r :: rs, d :: ds, t :: ts, cur⟩
        = Except.ok (some (⟨r, cur + d, mt⟩, ⟨rs, ds, ts, cur + d⟩))) := by
  constructor
  · intro r d t cur rs ds ts ht
    have hmt : memberTypeOfI32 t = none := by
      unfold memberTypeOfI32
      split
      · exact absurd (Or.inl (by assumption)) ht
      · split
        · exact absurd (Or.inr (Or.inl (by assumption))) ht
        · split
          · exact absurd (Or.inr (Or.inr (by assumption))) ht
          · rfl
    simp [RelMemberIter.next, relMemberTypeFrom, hmt]
  · intro r d t cur rs ds ts mt hmt
    simp [RelMemberIter.next, relMemberTypeFrom, hmt]

/-- Witness for the amended C5 at the unknown value 5. -/
theorem C5_unknown_member_type_panics_amended_witness :
    ¬((5 : Int) = 0 ∨ (5 : Int) = 1 ∨ (5 : Int) = 2) ∧
    RelMemberIter.next ⟨[7], [11], [5], 0⟩ = Except.error Panic.panic :=
  ⟨by decide,
   C5_unknown_member_type_panics_amended.1 7 11 5 0 [] [] [] (by decide)⟩

/-- C4 counterexample: a stream holding exactly 2 bytes.  `next()` ends
iteration with `None` instead of returning the `InvalidHeaderSize` error
the claim requires for a 1-3 byte truncated header (the source maps the
`UnexpectedEof` of the 4-byte read to `None`; see the TODO at
`src/blob.rs` line 199). -/
theorem C4_truncated_header_size :
    (ByteStream.remaining ⟨[1, 2], 0⟩ = 2) ∧
    (BlobReader.next
      ⟨fun _ => Except.error PErr.parseFailed,
       fun _ => Except.error PErr.parseFailed⟩
      ⟨⟨[1, 2], 0⟩, some 0, true⟩).1 = none :=
  ⟨rfl, rfl⟩

/-- C4 amended: when the stream ends before any byte of the 4-byte
big-endian header size, `next()` returns `None` (clean end of iteration);
when it ends after only 1 to 3 bytes, `next()` also returns `None` — the
truncation is silently treated as end of stream and the reader does not
enter the terminal error state.  `InvalidHeaderSize` is reserved for
I/O failures other than `UnexpectedEof`.  The header-only fast path
behaves identically. -/
theorem C4_truncated_header_size_amended (P : WireParsers)
    (s : BlobReaderState) (h1 : s.last_blob_ok = true)
    (h2 : s.stream.remaining < 4) :
    (BlobReader.next P s).1 = none ∧
    (BlobReader.next P s).2.last_blob_ok = true ∧
    (BlobReader.next_header_skip_blob P s).1 = none ∧
    (BlobReader.next_header_skip_blob P s).2.last_blob_ok = true := by
  have hre : ¬(s.stream.pos + 4 ≤ s.stream.bytes.length) := by
    unfold ByteStream.remaining at h2
    omega
  have hhd : read_blob_header P s = (none, { s with offset := none }) := by
    unfold read_blob_header ByteStream.readExact
    simp [hre]
  constructor
  · unfold BlobReader.next
    rw [h1]
    simp [hhd]
  constructor
  · unfold BlobReader.next
    rw [h1]
    simp [hhd, h1]
  constructor
  · unfold BlobReader.next_header_skip_blob
    rw [h1]
    simp [hhd]
  · unfold BlobReader.next_header_skip_blob
    rw [h1]
    simp [hhd, h1]

/-- Witness for the amended C4 on a 3-byte stream. -/
theorem C4_truncated_header_size_amended_witness :
    ByteStream.remaining ⟨[0, 0, 1], 0⟩ < 4 ∧
    (BlobReader.next
      ⟨fun _ => Except.ok ⟨"OSMData", 0⟩, fun _ => Except.ok ⟨none, none⟩⟩
      ⟨⟨[0, 0, 1], 0⟩, some 0, true⟩).1 = none :=
  ⟨by decide,
   (C4_truncated_header_size_amended
     ⟨fun _ => Except.ok ⟨"OSMData", 0⟩, fun _ => Except.ok ⟨none, none⟩⟩
     ⟨⟨[0, 0, 1], 0⟩, some 0, true⟩ rfl (by decide)).1⟩

/-- C3 counterexample: a blob whose zlib payload decompresses to exactly
32 MiB (at the ceiling, so the claim demands `MessageTooBig`).  The zlib
path instead truncates the decompressed stream at 32 MiB via `take` and
hands it to the parser: with a parser accepting that prefix, decoding
succeeds — no `MessageTooBig` is ever produced on the zlib path. -/
theorem C3_zlib_oversized_not_message_too_big :
    (List.replicate (2 ^ 25) (0 : Nat)).length = 2 ^ 25 ∧
    MAX_BLOB_MESSAGE_SIZE ≤ 2 ^ 25 ∧
    decode_blob (fun _ => List.replicate (2 ^ 25) (0 : Nat))
      (fun _ => Except.ok (42 : Nat)) ⟨none, some [1]⟩ = Except.ok 42 :=
  ⟨List.length_replicate _ _, by decide, rfl⟩

/-- C3 amended: on the raw path a payload of length at or above 32 MiB
fails with `MessageTooBig{size}` before any protobuf parsing (the result
does not depend on the parser).  On the zlib path no size check exists:
the decompressed output is truncated at 32 MiB and parsed, so the result
is the parse of that prefix (a `Protobuf` error or success) and is never
`MessageTooBig`. -/
theorem C3_zlib_oversized_not_message_too_big_amended {T : Type}
    (decompress : List Nat → List Nat) (parse : List Nat → Except PErr T)
    (blob : FFBlob) :
    (∀ r, blob.raw = some r → MAX_BLOB_MESSAGE_SIZE ≤ r.length →
      decode_blob decompress parse blob
        = Except.error (ErrorM.messageTooBig r.length)) ∧
    (∀ z, blob.raw = none → blob.zlib_data = some z →
      decode_blob decompress parse blob
        = (parse ((decompress z).take MAX_BLOB_MESSAGE_SIZE)).mapError
            (fun _ => ErrorM.protobuf "blob zlib data") ∧
      ∀ sz, decode_blob decompress parse blob
        ≠ Except.error (ErrorM.messageTooBig sz)) := by
  constructor
  · intro r hr hlen
    unfold decode_blob
    rw [hr]
    simp [Nat.not_lt.mpr hlen]
  · intro z hr hz
    unfold decode_blob
    rw [hr, hz]
    refine ⟨rfl, ?_⟩
    intro sz
    cases hp : parse ((decompress z).take MAX_BLOB_MESSAGE_SIZE) <;>
      simp [Except.mapError, hp]

/-- Witness for the amended C3: a raw payload of exactly 32 MiB fails
with `MessageTooBig` no matter the parser. -/
theorem C3_zlib_oversized_not_message_too_big_amended_witness :
    MAX_BLOB_MESSAGE_SIZE ≤ (List.replicate (2 ^ 25) (0 : Nat)).length ∧
    decode_blob (fun _ => []) (fun _ => Except.ok (0 : Nat))
      ⟨some (List.replicate (2 ^ 25) (0 : Nat)), none⟩
      = Except.error
          (ErrorM.messageTooBig (List.replicate (2 ^ 25) (0 : Nat)).length) :=
  ⟨by rw [List.length_replicate]; decide,
   (C3_zlib_oversized_not_message_too_big_amended (fun _ => [])
     (fun _ => Except.ok (0 : Nat))
     ⟨some (List.replicate (2 ^ 25) (0 : Nat)), none⟩).1
     (List.replicate (2 ^ 25) (0 : Nat)) rfl
     (by rw [List.length_replicate]; decide)⟩

/-! ### Helper lemmas: the terminal-error state of the blob reader -/

theorem read_blob_header_error_flag (P : WireParsers)
    (s s1 : BlobReaderState) (r : ErrorM)
    (h : read_blob_header P s = (some (Except.error r), s1)) :
    s1.last_blob_ok = false := by
  unfold read_blob_header at h
  split at h
  · simp at h
  · dsimp only at h
    split at h
    · have h2 := congrArg Prod.snd h
      dsimp only at h2
      rw [← h2]
    · split at h
      · have h2 := congrArg Prod.snd h
        dsimp only at h2
        rw [← h2]
      · rw [Prod.ext_iff] at h
        simp at h

theorem blobNext_error_flag (P : WireParsers) (s s1 : BlobReaderState)
    (e : ErrorM) (h : BlobReader.next P s = (some (Except.error e), s1)) :
    s1.last_blob_ok = false := by
  unfold BlobReader.next at h
  split at h
  · simp at h
  · split at h
    · simp at h
    · rename_i heq
      rw [Prod.ext_iff] at h
      obtain ⟨h1, h2⟩ := h
      subst h2
      exact read_blob_header_error_flag P s _ _ heq
    · dsimp only at h
      split at h
      · have h2 := congrArg Prod.snd h
        dsimp only at h2
        rw [← h2]
      · rw [Prod.ext_iff] at h
        simp at h

theorem blobSkip_error_flag (P : WireParsers) (s s1 : BlobReaderState)
    (e : ErrorM)
    (h : BlobReader.next_header_skip_blob P s = (some (Except.error e), s1)) :
    s1.last_blob_ok = false := by
  unfold BlobReader.next_header_skip_blob at h
  split at h
  · simp at h
  · split at h
    · simp at h
    · rename_i heq
      rw [Prod.ext_iff] at h
      obtain ⟨h1, h2⟩ := h
      subst h2
      exact read_blob_header_error_flag P s _ _ heq
    · dsimp only at h
      split at h
      · have h2 := congrArg Prod.snd h
        dsimp only at h2
        rw [← h2]
      · rw [Prod.ext_iff] at h
        simp at h

theorem blobNext_blocked (P : WireParsers) (s : BlobReaderState)
    (h : s.last_blob_ok = false) : BlobReader.next P s = (none, s) := by
  unfold BlobReader.next
  rw [h]
  rfl

theorem blobSkip_blocked (P : WireParsers) (s : BlobReaderState)
    (h : s.last_blob_ok = false) :
    BlobReader.next_header_skip_blob P s = (none, s) := by
  unfold BlobReader.next_header_skip_blob
  rw [h]
  rfl

theorem blobDoCall_blocked (P : WireParsers) (c : RCall)
    (s : BlobReaderState) (h : s.last_blob_ok = false) :
    BlobReader.doCall P c s = (none, s) := by
  cases c <;>
    simp [BlobReader.doCall, blobNext_blocked P s h, blobSkip_blocked P s h]

/-- C9: after `next` or `next_header_skip_blob` returns any error, the
reader is terminal — every subsequent call of either entry point, in any
order, returns `None` and never yields another blob or header. -/
theorem C9_terminal_after_error (P : WireParsers) (s s1 : BlobReaderState)
    (e : ErrorM)
    (h : BlobReader.next P s = (some (Except.error e), s1) ∨
      BlobReader.next_header_skip_blob P s = (some (Except.error e), s1)) :
    ∀ calls : List RCall, BlobReader.runReturnsNone P calls s1 = true := by
  have hflag : s1.last_blob_ok = false := by
    rcases h with h | h
    · exact blobNext_error_flag P s s1 e h
    · exact blobSkip_error_flag P s s1 e h
  intro calls
  induction calls with
  | nil => rfl
  | cons c cs ih =>
    unfold BlobReader.runReturnsNone
    rw [blobDoCall_blocked P c s1 hflag]
    simpa using ih

/-- Witness for C9: a stream declaring a 64 KiB blob header.  `next`
fails with `HeaderTooBig` and three further calls (mixing both entry
points) all return `None`. -/
theorem C9_terminal_after_error_witness :
    BlobReader.next
      ⟨fun _ => Except.ok ⟨"OSMData", 0⟩, fun _ => Except.ok ⟨none, none⟩⟩
      ⟨⟨[0, 1, 0, 0], 0⟩, some 0, true⟩
      = (some (Except.error (ErrorM.headerTooBig 65536)),
         ⟨⟨[0, 1, 0, 0], 4⟩, some 4, false⟩) ∧
    BlobReader.runReturnsNone
      ⟨fun _ => Except.ok ⟨"OSMData", 0⟩, fun _ => Except.ok ⟨none, none⟩⟩
      [RCall.nextCall, RCall.skipCall, RCall.nextCall]
      ⟨⟨[0, 1, 0, 0], 4⟩, some 4, false⟩ = true :=
  ⟨rfl,
   C9_terminal_after_error
     ⟨fun _ => Except.ok ⟨"OSMData", 0⟩, fun _ => Except.ok ⟨none, none⟩⟩
     ⟨⟨[0, 1, 0, 0], 0⟩, some 0, true⟩
     ⟨⟨[0, 1, 0, 0], 4⟩, some 4, false⟩
     (ErrorM.headerTooBig 65536) (Or.inl rfl)
     [RCall.nextCall, RCall.skipCall, RCall.nextCall]⟩

/-! ### Helper lemmas: folding with an associative reduce -/

theorem foldl_rd_eq {T : Type} (mp : ElementM → T) (t0 : T) (rd : T → T → T)
    (hassoc : ∀ a b c, rd (rd a b) c = rd a (rd b c))
    (hidl : ∀ a, rd t0 a = a) (hidr : ∀ a, rd a t0 = a)
    (l : List ElementM) :
    ∀ b, l.foldl (fun a e => rd a (mp e)) b = rd b (mapFold mp t0 rd l) := by
  induction l with
  | nil => intro b; simp [mapFold, hidr]
  | cons e l ih =>
    intro b
    have hmf : mapFold mp t0 rd (e :: l) = rd (mp e) (mapFold mp t0 rd l) := by
      unfold mapFold
      simp only [List.foldl_cons]
      rw [ih (rd t0 (mp e)), hidl]
      rfl
    simp only [List.foldl_cons]
    rw [ih (rd b (mp e)), hmf, hassoc]

theorem mapFold_append {T : Type} (mp : ElementM → T) (t0 : T)
    (rd : T → T → T)
    (hassoc : ∀ a b c, rd (rd a b) c = rd a (rd b c))
    (hidl : ∀ a, rd t0 a = a) (hidr : ∀ a, rd a t0 = a)
    (l1 l2 : List ElementM) :
    mapFold mp t0 rd (l1 ++ l2)
      = rd (mapFold mp t0 rd l1) (mapFold mp t0 rd l2) := by
  unfold mapFold
  rw [List.foldl_append]
  exact foldl_rd_eq mp t0 rd hassoc hidl hidr l2 _

theorem parElems_append (f1 f2 : List BlobContentI) :
    parElems (f1 ++ f2) = parElems f1 ++ parElems f2 := by
  simp [parElems]

/-- C1 counterexample: one data blob holding one group with one sparse
node and one dense node; map to a singleton list and reduce by list
append (associative, with `[]` a true two-sided identity).  The parallel
pipeline folds the blob's dense nodes before its sparse nodes, while
`for_each` visits sparse nodes first, so the two folds differ — refuting
the claimed equality for arbitrary associative reduces. -/
theorem C1_par_map_reduce_order_mismatch :
    (∀ a b c : List Nat, a ++ b ++ c = a ++ (b ++ c)) ∧
    (∀ a : List Nat, [] ++ a = a) ∧
    (∀ a : List Nat, a ++ [] = a) ∧
    (RedTree.leaf (BlobContentI.data c1Block)).flatten
      = [BlobContentI.data c1Block] ∧
    RedTree.eval (fun e => [elemTag e]) [] (fun a b => a ++ b)
        (RedTree.leaf (BlobContentI.data c1Block))
      ≠ mapFold (fun e => [elemTag e]) [] (fun a b => a ++ b)
          (forEachElems [BlobContentI.data c1Block]) := by
  refine ⟨fun a b c => List.append_assoc a b c, fun a => List.nil_append a,
    fun a => List.append_nil a, rfl, ?_⟩
  decide

/-- C1 amended: for every pure map and associative reduce with a true
identity, `par_map_reduce` — along any rayon reduction shape covering the
blobs in stream order — equals the sequential fold over the elements in
the pipeline's per-blob category order (all dense nodes, then all sparse
nodes, then all ways, then all relations of each data blob, blobs in
stream order).  This differs from the `for_each` order, which interleaves
the categories group by group with sparse nodes before dense ones; the
two folds agree whenever the reduce is also commutative. -/
theorem C1_par_map_reduce_order_mismatch_amended {T : Type}
    (mp : ElementM → T) (t0 : T) (rd : T → T → T)
    (hassoc : ∀ a b c, rd (rd a b) c = rd a (rd b c))
    (hidl : ∀ a, rd t0 a = a) (hidr : ∀ a, rd a t0 = a)
    (file : List BlobContentI) (t : RedTree) (hflat : t.flatten = file) :
    RedTree.eval mp t0 rd t = mapFold mp t0 rd (parElems file) := by
  subst hflat
  induction t with
  | leaf c =>
    cases c with
    | header => simp [RedTree.eval, RedTree.flatten, blobPartial, parElems,
        mapFold]
    | unknown => simp [RedTree.eval, RedTree.flatten, blobPartial, parElems,
        mapFold]
    | data b => simp [RedTree.eval, RedTree.flatten, blobPartial, parElems]
  | idLeaf => simp [RedTree.eval, RedTree.flatten, parElems, mapFold]
  | node l r ihl ihr =>
    simp only [RedTree.eval, RedTree.flatten, ihl, ihr, parElems_append]
    rw [mapFold_append mp t0 rd hassoc hidl hidr]

/-- Witness for the amended C1: counting elements with addition over the
one-blob file, along the shape that pads the reduction with one identity
leaf. -/
theorem C1_par_map_reduce_order_mismatch_amended_witness :
    (RedTree.node (RedTree.leaf (BlobContentI.data c1Block))
        RedTree.idLeaf).flatten = [BlobContentI.data c1Block] ∧
    RedTree.eval (fun _ => 1) 0 Nat.add
        (RedTree.node (RedTree.leaf (BlobContentI.data c1Block))
          RedTree.idLeaf)
      = mapFold (fun _ => 1) 0 Nat.add
          (parElems [BlobContentI.data c1Block]) :=
  ⟨rfl,
   C1_par_map_reduce_order_mismatch_amended (fun _ => 1) 0 Nat.add
     (fun a b c => Nat.add_assoc a b c) (fun a => Nat.zero_add a)
     (fun a => Nat.add_zero a) [BlobContentI.data c1Block]
     (RedTree.node (RedTree.leaf (BlobContentI.data c1Block))
       RedTree.idLeaf) rfl⟩

/-! ### Helper lemmas: the indexed reader's id ranges -/

theorem foldl_checkMinMax_some (l : List Int) :
    ∀ m M : Int, l.foldl checkMinMax (some m, some M)
      = (some (l.foldl Min.min m), some (l.foldl Max.max M)) := by
  induction l with
  | nil => intro m M; rfl
  | cons x xs ih =>
    intro m M
    simp only [List.foldl_cons, checkMinMax, Option.elim]
    exact ih _ _

theorem foldl_min_bound (xs : List Int) :
    ∀ m : Int, xs.foldl Min.min m ≤ m ∧ ∀ x ∈ xs, xs.foldl Min.min m ≤ x := by
  induction xs with
  | nil => intro m; simp
  | cons x xs ih =>
    intro m
    have h := ih (Min.min m x)
    constructor
    · calc (x :: xs).foldl Min.min m = xs.foldl Min.min (Min.min m x) := rfl
        _ ≤ Min.min m x := h.1
        _ ≤ m := min_le_left _ _
    · intro y hy
      rcases List.mem_cons.mp hy with hy | hy
      · subst hy
        calc xs.foldl Min.min (Min.min m y) ≤ Min.min m y := h.1
          _ ≤ y := min_le_right _ _
      · exact h.2 y hy

theorem foldl_max_bound (xs : List Int) :
    ∀ m : Int, m ≤ xs.foldl Max.max m ∧ ∀ x ∈ xs, x ≤ xs.foldl Max.max m := by
  induction xs with
  | nil => intro m; simp
  | cons x xs ih =>
    intro m
    have h := ih (Max.max m x)
    constructor
    · calc m ≤ Max.max m x := le_max_left _ _
        _ ≤ xs.foldl Max.max (Max.max m x) := h.1
    · intro y hy
      rcases List.mem_cons.mp hy with hy | hy
      · subst hy
        calc y ≤ Max.max m y := le_max_right _ _
          _ ≤ xs.foldl Max.max (Max.max m y) := h.1
      · exact h.2 y hy

theorem nodeRange_none_iff (b : PrimitiveBlock) :
    nodeRange b = none ↔ nodeIdsOfBlock b = [] := by
  unfold nodeRange
  cases hl : nodeIdsOfBlock b with
  | nil => simp
  | cons x xs =>
    simp only [List.foldl_cons, checkMinMax, Option.elim]
    rw [foldl_checkMinMax_some]
    simp

theorem nodeRange_bounds (b : PrimitiveBlock) (lo hi : Int)
    (h : nodeRange b = some (lo, hi)) :
    ∀ id ∈ nodeIdsOfBlock b, lo ≤ id ∧ id ≤ hi := by
  unfold nodeRange at h
  cases hl : nodeIdsOfBlock b with
  | nil => simp
  | cons x xs =>
    rw [hl] at h
    simp only [List.foldl_cons, checkMinMax, Option.elim] at h
    rw [foldl_checkMinMax_some] at h
    simp only [Option.some.injEq, Prod.mk.injEq] at h
    intro id hid
    rcases List.mem_cons.mp hid with hid | hid
    · subst hid
      exact ⟨h.1 ▸ (foldl_min_bound xs id).1, h.2 ▸ (foldl_max_bound xs id).1⟩
    · exact ⟨h.1 ▸ (foldl_min_bound xs x).2 id hid,
        h.2 ▸ (foldl_max_bound xs x).2 id hid⟩

theorem filter_flatMap_eq {α β : Type} (l : List α) (f : α → List β)
    (p : β → Bool) :
    (l.flatMap f).filter p = l.flatMap fun x => (f x).filter p := by
  induction l with
  | nil => rfl
  | cons x xs ih => simp [List.flatMap_cons, List.filter_append, ih]

theorem flatMap_congr_mem {α β : Type} (l : List α) (f g : α → List β)
    (h : ∀ a ∈ l, f a = g a) : l.flatMap f = l.flatMap g := by
  induction l with
  | nil => rfl
  | cons x xs ih =>
    simp only [List.flatMap_cons]
    rw [h x (by simp), ih fun a ha => h a (by simp [ha])]

theorem contains_iff_mem (S : List Int) (x : Int) :
    S.contains x = true ↔ x ∈ S :=
  List.elem_iff

theorem mem_nodeIdsOfBlock_node (b : PrimitiveBlock) (g : PrimitiveGroup)
    (n : NodeData) (hg : g ∈ b.groups) (hn : n ∈ g.nodes) :
    n.id ∈ nodeIdsOfBlock b :=
  List.mem_flatMap.mpr ⟨g, hg,
    List.mem_append.mpr (Or.inl (List.mem_map.mpr ⟨n, hn, rfl⟩))⟩

theorem mem_nodeIdsOfBlock_dense (b : PrimitiveBlock) (g : PrimitiveGroup)
    (dn : DenseNode) (hg : g ∈ b.groups) (hn : dn ∈ denseNodesOf g.dense) :
    dn.id ∈ nodeIdsOfBlock b :=
  List.mem_flatMap.mpr ⟨g, hg,
    List.mem_append.mpr (Or.inr (List.mem_map.mpr ⟨dn, hn, rfl⟩))⟩

theorem pass2EmitsBlock_eq_filter (S : List Int) (b : PrimitiveBlock) :
    pass2EmitsBlock S b
      = (b.groups.flatMap fun g =>
          g.nodes.map (ElementM.node b) ++
          (denseNodesOf g.dense).map (ElementM.denseNode b)).filter
          (nodeIdInSet S) := by
  rw [filter_flatMap_eq]
  unfold pass2EmitsBlock
  cases hr : nodeRange b with
  | none =>
    have hids := (nodeRange_none_iff b).mp hr
    have hg : ∀ g ∈ b.groups,
        g.nodes = [] ∧ denseNodesOf g.dense = [] := by
      intro g hgm
      have h0 := (List.flatMap_eq_nil_iff.mp hids) _ hgm
      rw [List.append_eq_nil] at h0
      exact ⟨List.map_eq_nil_iff.mp h0.1, List.map_eq_nil_iff.mp h0.2⟩
    symm
    rw [List.flatMap_eq_nil_iff]
    intro g hgm
    rw [(hg g hgm).1, (hg g hgm).2]
    rfl
  | some lohi =>
    obtain ⟨lo, hi⟩ := lohi
    dsimp only
    have hb := nodeRange_bounds b lo hi hr
    by_cases hri : rangeIncluded lo hi S = true
    · rw [if_pos hri]
      apply flatMap_congr_mem
      intro g hgm
      rw [List.filter_append, List.filter_map, List.filter_map]
      have hns : g.nodes.filter (fun n => snapshotMem S lo hi n.id)
          = g.nodes.filter ((nodeIdInSet S) ∘ (ElementM.node b)) := by
        apply List.filter_congr
        intro n hn
        have hbnd := hb n.id (mem_nodeIdsOfBlock_node b g n hgm hn)
        simp [snapshotMem, nodeIdInSet, ElementM.nodeId, hbnd.1, hbnd.2]
      have hds : (denseNodesOf g.dense).filter
            (fun dn => snapshotMem S lo hi dn.id)
          = (denseNodesOf g.dense).filter
            ((nodeIdInSet S) ∘ (ElementM.denseNode b)) := by
        apply List.filter_congr
        intro dn hn
        have hbnd := hb dn.id (mem_nodeIdsOfBlock_dense b g dn hgm hn)
        simp [snapshotMem, nodeIdInSet, ElementM.nodeId, hbnd.1, hbnd.2]
      rw [hns, hds]
    · rw [if_neg hri]
      have hnotin : ∀ x ∈ S, ¬(lo ≤ x ∧ x ≤ hi) := by
        intro x hx hcon
        apply hri
        unfold rangeIncluded
        rw [List.any_eq_true]
        exact ⟨x, hx, by simp [hcon.1, hcon.2]⟩
      have hcontains : ∀ id ∈ nodeIdsOfBlock b, S.contains id = false := by
        intro id hid
        cases hc : S.contains id with
        | false => rfl
        | true =>
          exact absurd (hb id hid) (hnotin id ((contains_iff_mem S id).mp hc))
      symm
      rw [List.flatMap_eq_nil_iff]
      intro g hgm
      rw [List.filter_append, List.filter_map, List.filter_map]
      have hn1 : g.nodes.filter ((nodeIdInSet S) ∘ (ElementM.node b)) = [] := by
        rw [List.filter_eq_nil_iff]
        intro n hn
        have := hcontains n.id (mem_nodeIdsOfBlock_node b g n hgm hn)
        simp only [nodeIdInSet, ElementM.nodeId, Function.comp_apply,
          Option.elim]
        simp only [Bool.not_eq_true] at this ⊢
        exact this
      have hn2 : (denseNodesOf g.dense).filter
          ((nodeIdInSet S) ∘ (ElementM.denseNode b)) = [] := by
        rw [List.filter_eq_nil_iff]
        intro dn hn
        have := hcontains dn.id (mem_nodeIdsOfBlock_dense b g dn hgm hn)
        simp only [nodeIdInSet, ElementM.nodeId, Function.comp_apply,
          Option.elim]
        simp only [Bool.not_eq_true] at this ⊢
        exact this
      rw [hn1, hn2]
      rfl

theorem pass2_flatMap_eq_filter (S : List Int) (file : List BlobContentI) :
    (file.flatMap fun c =>
      match c with
      | BlobContentI.data b => pass2EmitsBlock S b
      | _ => []) = (allNodeElems file).filter (nodeIdInSet S) := by
  induction file with
  | nil => rfl
  | cons c cs ih =>
    simp only [allNodeElems, List.flatMap_cons, List.filter_append] at ih ⊢
    rw [ih]
    cases c with
    | header => rfl
    | unknown => rfl
    | data b =>
      dsimp only
      rw [pass2EmitsBlock_eq_filter S b]

theorem read_ways_and_deps_eq (file : List BlobContentI)
    (P : PrimitiveBlock → WayData → Bool) :
    read_ways_and_deps file P
      = (file.flatMap fun c =>
          match c with
          | BlobContentI.data b =>
            (acceptedWaysOfBlock P b).map (ElementM.way b)
          | _ => []) ++
        (allNodeElems file).filter (nodeIdInSet (requiredIds file P)) := by
  unfold read_ways_and_deps
  rw [pass2_flatMap_eq_filter]

theorem mem_waysPart (file : List BlobContentI)
    (P : PrimitiveBlock → WayData → Bool) (b : PrimitiveBlock) (w : WayData) :
    ElementM.way b w ∈ (file.flatMap fun c =>
        match c with
        | BlobContentI.data b2 =>
          (acceptedWaysOfBlock P b2).map (ElementM.way b2)
        | _ => [])
      ↔ BlobContentI.data b ∈ file ∧ w ∈ blockWays b ∧ P b w = true := by
  rw [List.mem_flatMap]
  constructor
  · rintro ⟨c, hc, hm⟩
    cases c with
    | header => simp at hm
    | unknown => simp at hm
    | data b2 =>
      dsimp only at hm
      rw [List.mem_map] at hm
      obtain ⟨w2, hw2, heq⟩ := hm
      rw [ElementM.way.injEq] at heq
      obtain ⟨hb, hw⟩ := heq
      subst hb
      subst hw
      unfold acceptedWaysOfBlock at hw2
      rw [List.mem_flatMap] at hw2
      obtain ⟨g, hg, hwg⟩ := hw2
      rw [List.mem_filter] at hwg
      exact ⟨hc, List.mem_flatMap.mpr ⟨g, hg, hwg.1⟩, hwg.2⟩
  · rintro ⟨hf, hw, hp⟩
    unfold blockWays at hw
    rw [List.mem_flatMap] at hw
    obtain ⟨g, hg, hwg⟩ := hw
    refine ⟨BlobContentI.data b, hf, ?_⟩
    dsimp only
    exact List.mem_map.mpr
      ⟨w, List.mem_flatMap.mpr ⟨g, hg, List.mem_filter.mpr ⟨hwg, hp⟩⟩, rfl⟩

theorem waysPart_shape (file : List BlobContentI)
    (P : PrimitiveBlock → WayData → Bool) (e : ElementM)
    (h : e ∈ (file.flatMap fun c =>
        match c with
        | BlobContentI.data b2 =>
          (acceptedWaysOfBlock P b2).map (ElementM.way b2)
        | _ => [])) :
    ∃ b w, e = ElementM.way b w := by
  rw [List.mem_flatMap] at h
  obtain ⟨c, hc, hm⟩ := h
  cases c with
  | header => simp at hm
  | unknown => simp at hm
  | data b2 =>
    dsimp only at hm
    rw [List.mem_map] at hm
    obtain ⟨w2, _, heq⟩ := hm
    exact ⟨b2, w2, heq.symm⟩

theorem mem_allNodeElems_node (file : List BlobContentI)
    (b : PrimitiveBlock) (n : NodeData) :
    ElementM.node b n ∈ allNodeElems file
      ↔ BlobContentI.data b ∈ file ∧ n ∈ blockNodes b := by
  unfold allNodeElems
  rw [List.mem_flatMap]
  constructor
  · rintro ⟨c, hc, hm⟩
    cases c with
    | header => simp at hm
    | unknown => simp at hm
    | data b2 =>
      dsimp only at hm
      rw [List.mem_flatMap] at hm
      obtain ⟨g, hg, hge⟩ := hm
      rw [List.mem_append] at hge
      rcases hge with hge | hge
      · rw [List.mem_map] at hge
        obtain ⟨n2, hn2, heq⟩ := hge
        rw [ElementM.node.injEq] at heq
        obtain ⟨hb, hn⟩ := heq
        subst hb
        subst hn
        exact ⟨hc, List.mem_flatMap.mpr ⟨g, hg, hn2⟩⟩
      · rw [List.mem_map] at hge
        obtain ⟨dn2, _, heq⟩ := hge
        exact absurd heq (by simp)
  · rintro ⟨hf, hn⟩
    unfold blockNodes at hn
    rw [List.mem_flatMap] at hn
    obtain ⟨g, hg, hng⟩ := hn
    refine ⟨BlobContentI.data b, hf, ?_⟩
    dsimp only
    exact List.mem_flatMap.mpr
      ⟨g, hg, List.mem_append.mpr (Or.inl (List.mem_map.mpr ⟨n, hng, rfl⟩))⟩

theorem mem_allNodeElems_dense (file : List BlobContentI)
    (b : PrimitiveBlock) (dn : DenseNode) :
    ElementM.denseNode b dn ∈ allNodeElems file
      ↔ BlobContentI.data b ∈ file ∧ dn ∈ blockDense b := by
  unfold allNodeElems
  rw [List.mem_flatMap]
  constructor
  · rintro ⟨c, hc, hm⟩
    cases c with
    | header => simp at hm
    | unknown => simp at hm
    | data b2 =>
      dsimp only at hm
      rw [List.mem_flatMap] at hm
      obtain ⟨g, hg, hge⟩ := hm
      rw [List.mem_append] at hge
      rcases hge with hge | hge
      · rw [List.mem_map] at hge
        obtain ⟨n2, _, heq⟩ := hge
        exact absurd heq (by simp)
      · rw [List.mem_map] at hge
        obtain ⟨dn2, hn2, heq⟩ := hge
        rw [ElementM.denseNode.injEq] at heq
        obtain ⟨hb, hn⟩ := heq
        subst hb
        subst hn
        exact ⟨hc, List.mem_flatMap.mpr ⟨g, hg, hn2⟩⟩
  · rintro ⟨hf, hn⟩
    unfold blockDense at hn
    rw [List.mem_flatMap] at hn
    obtain ⟨g, hg, hng⟩ := hn
    refine ⟨BlobContentI.data b, hf, ?_⟩
    dsimp only
    exact List.mem_flatMap.mpr
      ⟨g, hg, List.mem_append.mpr (Or.inr (List.mem_map.mpr ⟨dn, hng, rfl⟩))⟩

theorem allNodeElems_shape (file : List BlobContentI) (e : ElementM)
    (h : e ∈ allNodeElems file) :
    (∃ b n, e = ElementM.node b n) ∨ (∃ b dn, e = ElementM.denseNode b dn) := by
  unfold allNodeElems at h
  rw [List.mem_flatMap] at h
  obtain ⟨c, hc, hm⟩ := h
  cases c with
  | header => simp at hm
  | unknown => simp at hm
  | data b2 =>
    dsimp only at hm
    rw [List.mem_flatMap] at hm
    obtain ⟨g, hg, hge⟩ := hm
    rw [List.mem_append] at hge
    rcases hge with hge | hge
    · rw [List.mem_map] at hge
      obtain ⟨n2, _, heq⟩ := hge
      exact Or.inl ⟨b2, n2, heq.symm⟩
    · rw [List.mem_map] at hge
      obtain ⟨dn2, _, heq⟩ := hge
      exact Or.inr ⟨b2, dn2, heq.symm⟩

theorem mem_requiredIds (file : List BlobContentI)
    (P : PrimitiveBlock → WayData → Bool) (id : Int) :
    id ∈ requiredIds file P
      ↔ ∃ b w, BlobContentI.data b ∈ file ∧ w ∈ blockWays b ∧
          P b w = true ∧ id ∈ Way.refsDecoded w := by
  unfold requiredIds
  rw [List.mem_flatMap]
  constructor
  · rintro ⟨c, hc, hm⟩
    cases c with
    | header => simp at hm
    | unknown => simp at hm
    | data b =>
      dsimp only at hm
      rw [List.mem_flatMap] at hm
      obtain ⟨w, hw, hid⟩ := hm
      unfold acceptedWaysOfBlock at hw
      rw [List.mem_flatMap] at hw
      obtain ⟨g, hg, hwg⟩ := hw
      rw [List.mem_filter] at hwg
      exact ⟨b, w, hc, List.mem_flatMap.mpr ⟨g, hg, hwg.1⟩, hwg.2, hid⟩
  · rintro ⟨b, w, hf, hw, hp, hid⟩
    unfold blockWays at hw
    rw [List.mem_flatMap] at hw
    obtain ⟨g, hg, hwg⟩ := hw
    refine ⟨BlobContentI.data b, hf, ?_⟩
    dsimp only
    exact List.mem_flatMap.mpr
      ⟨w, List.mem_flatMap.mpr ⟨g, hg, List.mem_filter.mpr ⟨hwg, hp⟩⟩, hid⟩

theorem filterMap_nodeId_filter (S : List Int) (l : List ElementM) :
    (l.filter (nodeIdInSet S)).filterMap ElementM.nodeId
      = (l.filterMap ElementM.nodeId).filter fun i => S.contains i := by
  induction l with
  | nil => rfl
  | cons e es ih =>
    cases e with
    | node b n =>
      by_cases hc : S.contains n.id = true
      · have hm : n.id ∈ S := (contains_iff_mem S n.id).mp hc
        simp [List.filter_cons, nodeIdInSet, ElementM.nodeId, hc, hm,
          List.filterMap_cons, ih]
      · simp only [Bool.not_eq_true] at hc
        have hm : n.id ∉ S := fun x =>
          Bool.noConfusion (((contains_iff_mem S n.id).mpr x).symm.trans hc)
        simp [List.filter_cons, nodeIdInSet, ElementM.nodeId, hc, hm,
          List.filterMap_cons, ih]
    | denseNode b dn =>
      by_cases hc : S.contains dn.id = true
      · have hm : dn.id ∈ S := (contains_iff_mem S dn.id).mp hc
        simp [List.filter_cons, nodeIdInSet, ElementM.nodeId, hc, hm,
          List.filterMap_cons, ih]
      · simp only [Bool.not_eq_true] at hc
        have hm : dn.id ∉ S := fun x =>
          Bool.noConfusion (((contains_iff_mem S dn.id).mpr x).symm.trans hc)
        simp [List.filter_cons, nodeIdInSet, ElementM.nodeId, hc, hm,
          List.filterMap_cons, ih]
    | way b w =>
      simp [List.filter_cons, nodeIdInSet, ElementM.nodeId,
        List.filterMap_cons, ih]
    | relationElem b r =>
      simp [List.filter_cons, nodeIdInSet, ElementM.nodeId,
        List.filterMap_cons, ih]

/-- C2: on a fresh reader, `read_ways_and_deps(P, on)` invokes the
callback exactly on (i) every way of the file that `P` accepts, (ii)
every sparse or dense node whose id is referenced by at least one
accepted way (clause four characterises the required-id set as exactly
those references); relations are never emitted, and — under the claim's
assumption that each node id occurs once in the file — no node is emitted
twice (the emitted node ids are pairwise distinct). -/
theorem C2_read_ways_and_deps_exact (file : List BlobContentI)
    (P : PrimitiveBlock → WayData → Bool)
    (hids : (allNodeIds file).Nodup) :
    (∀ b w, ElementM.way b w ∈ read_ways_and_deps file P ↔
      BlobContentI.data b ∈ file ∧ w ∈ blockWays b ∧ P b w = true) ∧
    (∀ b n, ElementM.node b n ∈ read_ways_and_deps file P ↔
      BlobContentI.data b ∈ file ∧ n ∈ blockNodes b ∧
        n.id ∈ requiredIds file P) ∧
    (∀ b dn, ElementM.denseNode b dn ∈ read_ways_and_deps file P ↔
      BlobContentI.data b ∈ file ∧ dn ∈ blockDense b ∧
        dn.id ∈ requiredIds file P) ∧
    (∀ id, id ∈ requiredIds file P ↔ ∃ b w, BlobContentI.data b ∈ file ∧
      w ∈ blockWays b ∧ P b w = true ∧ id ∈ Way.refsDecoded w) ∧
    (∀ b r, ElementM.relationElem b r ∉ read_ways_and_deps file P) ∧
    (emittedNodeIds (read_ways_and_deps file P)).Nodup := by
  refine ⟨?_, ?_, ?_, fun id => mem_requiredIds file P id, ?_, ?_⟩
  · intro b w
    rw [read_ways_and_deps_eq, List.mem_append]
    constructor
    · rintro (h | h)
      · exact (mem_waysPart file P b w).mp h
      · exfalso
        rcases allNodeElems_shape file _ (List.mem_filter.mp h).1 with
          ⟨b2, n2, heq⟩ | ⟨b2, dn2, heq⟩ <;> exact ElementM.noConfusion heq
    · intro h
      exact Or.inl ((mem_waysPart file P b w).mpr h)
  · intro b n
    rw [read_ways_and_deps_eq, List.mem_append]
    constructor
    · rintro (h | h)
      · exfalso
        obtain ⟨b2, w2, heq⟩ := waysPart_shape file P _ h
        exact ElementM.noConfusion heq
      · rw [List.mem_filter] at h
        have h1 := (mem_allNodeElems_node file b n).mp h.1
        have h2 : (requiredIds file P).contains n.id = true := h.2
        exact ⟨h1.1, h1.2, (contains_iff_mem _ _).mp h2⟩
    · rintro ⟨hf, hn, hid⟩
      refine Or.inr (List.mem_filter.mpr
        ⟨(mem_allNodeElems_node file b n).mpr ⟨hf, hn⟩, ?_⟩)
      exact (contains_iff_mem _ _).mpr hid
  · intro b dn
    rw [read_ways_and_deps_eq, List.mem_append]
    constructor
    · rintro (h | h)
      · exfalso
        obtain ⟨b2, w2, heq⟩ := waysPart_shape file P _ h
        exact ElementM.noConfusion heq
      · rw [List.mem_filter] at h
        have h1 := (mem_allNodeElems_dense file b dn).mp h.1
        have h2 : (requiredIds file P).contains dn.id = true := h.2
        exact ⟨h1.1, h1.2, (contains_iff_mem _ _).mp h2⟩
    · rintro ⟨hf, hn, hid⟩
      refine Or.inr (List.mem_filter.mpr
        ⟨(mem_allNodeElems_dense file b dn).mpr ⟨hf, hn⟩, ?_⟩)
      exact (contains_iff_mem _ _).mpr hid
  · intro b r
    rw [read_ways_and_deps_eq, List.mem_append]
    rintro (h | h)
    · obtain ⟨b2, w2, heq⟩ := waysPart_shape file P _ h
      exact ElementM.noConfusion heq
    · rcases allNodeElems_shape file _ (List.mem_filter.mp h).1 with
        ⟨b2, n2, heq⟩ | ⟨b2, dn2, heq⟩ <;> exact ElementM.noConfusion heq
  · rw [read_ways_and_deps_eq]
    unfold emittedNodeIds
    rw [List.filterMap_append]
    have hw : (List.filterMap ElementM.nodeId (file.flatMap fun c =>
        match c with
        | BlobContentI.data b =>
          (acceptedWaysOfBlock P b).map (ElementM.way b)
        | _ => [])) = [] := by
      rw [List.filterMap_eq_nil_iff]
      intro e he
      obtain ⟨b2, w2, heq⟩ := waysPart_shape file P e he
      subst heq
      rfl
    rw [hw, List.nil_append, filterMap_nodeId_filter]
    exact List.Nodup.filter _ hids

/-- Witness for C2: one data blob with sparse nodes 105 and 200, dense
node 108, a way 107 referencing 105 and 108 (delta-encoded), and one
relation.  The node ids are pairwise distinct and the emitted node ids
are too. -/
theorem C2_read_ways_and_deps_exact_witness :
    (allNodeIds [BlobContentI.data ⟨⟨[], 100, 0, 0, 1000⟩,
      [⟨[⟨105, [], [], 0, 0⟩, ⟨200, [], [], 0, 0⟩],
        ⟨[108], [0], [0], [], ⟨[], [], [], [], [], []⟩⟩,
        [⟨107, [], [], [105, 3], [], []⟩],
        [⟨9, [], [], [], [], []⟩]⟩]⟩]).Nodup ∧
    (emittedNodeIds (read_ways_and_deps
      [BlobContentI.data ⟨⟨[], 100, 0, 0, 1000⟩,
        [⟨[⟨105, [], [], 0, 0⟩, ⟨200, [], [], 0, 0⟩],
          ⟨[108], [0], [0], [], ⟨[], [], [], [], [], []⟩⟩,
          [⟨107, [], [], [105, 3], [], []⟩],
          [⟨9, [], [], [], [], []⟩]⟩]⟩]
      (fun _ w => w.id == 107))).Nodup :=
  ⟨by decide,
   (C2_read_ways_and_deps_exact
     [BlobContentI.data ⟨⟨[], 100, 0, 0, 1000⟩,
       [⟨[⟨105, [], [], 0, 0⟩, ⟨200, [], [], 0, 0⟩],
         ⟨[108], [0], [0], [], ⟨[], [], [], [], [], []⟩⟩,
         [⟨107, [], [], [105, 3], [], []⟩],
         [⟨9, [], [], [], [], []⟩]⟩]⟩]
     (fun _ w => w.id == 107) (by decide)).2.2.2.2.2⟩
